import Mathlib

/-!
# Drinks concentrate dispenser: button node and pump controller

A shallow embedding of `Button controller FINAL/src/main.cpp` (namespace
`ButtonController`) and of `pump controller/src/main.cpp` (namespace
`PumpController`).  The controller is a
single-threaded Arduino sketch: global variables, four pump output pins, a
serial status channel and a blocking `delay`.  The globals and the pin levels
become the fields of `Controller`; every externally visible effect
(`Serial.print`, `analogWrite`, `delay`, ...) is appended to the field `log`
in program order.

Numeric conventions.
* `int` is the 16-bit signed integer of the Arduino Uno; arithmetic that can
  overflow is wrapped with `wrapInt16`.
* `unsigned long` (the argument of `delay`) is a 32-bit unsigned integer.
* `float` is the 32-bit single-precision type.  A `float` value is
  represented by the rational it denotes, and every `float` operation of the
  sketch (`floatMul`, `floatDiv`, `intToFloat`) rounds its exact result to the
  nearest single-precision value with `roundFloat32`.  The literals of the
  tables (0, 0.25, 0.5, 2.5) are exactly representable.
* An array read outside the bounds of its table has no defined result and is
  modelled by `none`.
-/

namespace ButtonController

/-! ## The button node -/

def purge : Nat := 2
def order : Nat := 3
def rec1 : Nat := 4
def rec2 : Nat := 5
def rec3 : Nat := 6
def rec4 : Nat := 7
def tall : Nat := 8
def grande : Nat := 9
def venti : Nat := 10
def trenta : Nat := 11

/-- Level read from a digital input pin. -/
inductive Level where
  | LOW
  | HIGH
  deriving DecidableEq, Repr

/-- Source function `pressed(pin)`: the buttons read `LOW` when pressed.  The
argument `digitalRead` gives the level of every pin. -/
def pressed (digitalRead : Nat → Level) (pin : Nat) : Bool :=
  if digitalRead pin = .LOW then true else false

/-- Source function `getMsg()`.  The local `msg` has no initialiser, so the
returned character has no defined value when no branch assigns it; that case
is `none`. -/
def getMsg (digitalRead : Nat → Level) : Option Char :=
  if pressed digitalRead purge = true then some 'P'
  else if pressed digitalRead order = true then some 'O'
  else if pressed digitalRead rec1 = true then some 'A'
  else if pressed digitalRead rec2 = true then some 'B'
  else if pressed digitalRead rec3 = true then some 'C'
  else if pressed digitalRead rec4 = true then some 'D'
  else if pressed digitalRead tall = true then some 'W'
  else if pressed digitalRead grande = true then some 'X'
  else if pressed digitalRead venti = true then some 'Y'
  else if pressed digitalRead trenta = true then some 'Z'
  else none

/-- The ten buttons in their fixed priority order, each with the command
character it stands for. -/
def buttons : List (Nat × Char) :=
  [(purge, 'P'), (order, 'O'), (rec1, 'A'), (rec2, 'B'), (rec3, 'C'), (rec4, 'D'),
   (tall, 'W'), (grande, 'X'), (venti, 'Y'), (trenta, 'Z')]

/-- Character of the first pressed button in the priority order, if any. -/
def firstPressed (digitalRead : Nat → Level) : Option Char :=
  (buttons.find? fun b => decide (digitalRead b.1 = .LOW)).map fun b => b.2

/-- Command alphabet of the serial channel. -/
def commandAlphabet : List Char := ['P', 'O', 'V', 'A', 'B', 'C', 'D', 'W', 'X', 'Y', 'Z']

/-- Pin levels when exactly the buttons on the pins `pins` are pressed. -/
def pressedPins (pins : List Nat) : Nat → Level :=
  fun q => if q ∈ pins then .LOW else .HIGH

end ButtonController

namespace PumpController

/-! ## Constants and tables -/

def pump1_pin : Nat := 11
def pump2_pin : Nat := 10
def pump3_pin : Nat := 9
def pump4_pin : Nat := 8

/-- Ounces per second that the pumps provide (`const float flow_rate = 2.5`). -/
def flow_rate : ℚ := 5 / 2

/-- PWM level written to a running pump. -/
def pump_power : Nat := 255

inductive StateMachineState where
  | STANDBY
  | TEST
  | CLEANING
  | DRINK_ORDERING
  | SIZE_ORDERING
  deriving DecidableEq, Repr

structure baseRecipe where
  name : String
  quantities : List (List ℚ)
  deriving DecidableEq, Repr

def drink_sizes : List (List Int) := [[0, 12], [1, 16], [2, 20], [3, 30]]

def recipe_array : List baseRecipe :=
  [ ⟨"test drink", [[0, 1/4], [1, 1/4], [2, 1/4], [3, 1/4], [4, 0]]⟩,
    ⟨"lemonade", [[0, 1/2], [1, 0], [2, 0], [3, 1/2], [4, 0]]⟩,
    ⟨"passionfruit lemonade", [[0, 0], [1, 1/4], [2, 1/4], [3, 0], [4, 0]]⟩,
    ⟨"mango dragonfruit", [[0, 0], [1, 0], [2, 0], [3, 1/2], [4, 0]]⟩ ]

/-! ## Machine arithmetic -/

/-- Two's-complement wrap of an integer into the 16-bit `int` range. -/
def wrapInt16 (x : Int) : Int := (x + 32768) % 65536 - 32768

/-- Product of two `int` values. -/
def mulInt16 (a b : Int) : Int := wrapInt16 (a * b)

/-- Conversion of an `int` to the `unsigned long` parameter of `delay`. -/
def toULong (x : Int) : Nat := (x % 4294967296).toNat

/-- Conversion of a `float` to an `int` parameter: the fraction is dropped. -/
def floatToInt (x : ℚ) : Int := wrapInt16 (Int.tdiv x.num x.den)

/-- Power of two with an integer exponent. -/
def pow2 (e : Int) : ℚ :=
  if 0 ≤ e then ((2 ^ e.toNat : Nat) : ℚ) else 1 / ((2 ^ (-e).toNat : Nat) : ℚ)

/-- Binary exponent `e` of a positive rational: `2 ^ e ≤ q < 2 ^ (e + 1)`. -/
def binaryExponent (q : ℚ) : Int :=
  let e0 : Int := (Nat.log2 q.num.toNat : Int) - (Nat.log2 q.den : Int)
  if pow2 e0 ≤ q then e0 else e0 - 1

/-- Rounding to the nearest integer, ties to the even one. -/
def roundHalfEven (m : ℚ) : Int :=
  let fl := m.floor
  let frac := m - fl
  if frac < 1 / 2 then fl
  else if 1 / 2 < frac then fl + 1
  else if fl % 2 = 0 then fl else fl + 1

/-- Rounding of a rational to the nearest single-precision `float` (24-bit
significand, ties to even, exponent range not limited). -/
def roundFloat32 (q : ℚ) : ℚ :=
  if q = 0 then 0
  else if 0 < q then
    (roundHalfEven (q / pow2 (binaryExponent q - 23)) : ℚ) * pow2 (binaryExponent q - 23)
  else
    -((roundHalfEven (-q / pow2 (binaryExponent (-q) - 23)) : ℚ)
      * pow2 (binaryExponent (-q) - 23))

/-- Product of two `float` values. -/
def floatMul (a b : ℚ) : ℚ := roundFloat32 (a * b)

/-- Quotient of two `float` values. -/
def floatDiv (a b : ℚ) : ℚ := roundFloat32 (a / b)

/-- Conversion of an `int` to `float`. -/
def intToFloat (n : Int) : ℚ := roundFloat32 (n : ℚ)

/-- Narrowing of the `int` result of `Serial.read()` to a signed `char`. -/
def toChar (x : Int) : Int := (x + 128) % 256 - 128

/-- Integer value of a character literal. -/
def code (c : Char) : Int := c.toNat

/-- Table read with an `int` index; `none` outside the table. -/
def index {α : Type} (xs : List α) (i : Int) : Option α :=
  if 0 ≤ i then xs[i.toNat]? else none

/-! ## Observable effects and controller state -/

inductive Event where
  | print (text : String)
  | println (text : String)
  | printlnFloat (value : ℚ)
  | pinModeOutput (pin : Nat)
  | digitalWriteLow (pin : Nat)
  | analogWrite (pin : Nat) (value : Nat)
  | delay (ms : Nat)
  deriving DecidableEq, Repr

/-- Levels of the four pump output pins (0 is off). -/
structure PumpOutputs where
  pump1 : Nat
  pump2 : Nat
  pump3 : Nat
  pump4 : Nat
  deriving DecidableEq, Repr

def writePin (pin value : Nat) (o : PumpOutputs) : PumpOutputs :=
  if pin = pump1_pin then { o with pump1 := value }
  else if pin = pump2_pin then { o with pump2 := value }
  else if pin = pump3_pin then { o with pump3 := value }
  else if pin = pump4_pin then { o with pump4 := value }
  else o

/-- Global variables of the sketch, the pin levels and the effect log. -/
structure Controller where
  state : StateMachineState
  initial_activation : Bool
  selected : Bool
  size_selected : Bool
  input : Int
  outputs : PumpOutputs
  log : List Event
  deriving DecidableEq, Repr

/-- One byte waiting on the serial line, or nothing. -/
abbrev SerialInput := Option (Fin 256)

/-- Result of `Serial.read()`: the byte, or -1 when no data is available. -/
def serialRead (rd : SerialInput) : Int :=
  match rd with
  | none => -1
  | some b => (b.val : Int)

/-- Serial input carrying the character `c`. -/
def key (c : Char) : SerialInput := some (Fin.ofNat c.toNat)

def emit (e : Event) (s : Controller) : Controller :=
  { s with log := s.log ++ [e] }

def serialPrint (text : String) (s : Controller) : Controller :=
  emit (.print text) s

def serialPrintln (text : String) (s : Controller) : Controller :=
  emit (.println text) s

def serialPrintlnFloat (value : ℚ) (s : Controller) : Controller :=
  emit (.printlnFloat value) s

def pinModeOutput (pin : Nat) (s : Controller) : Controller :=
  emit (.pinModeOutput pin) s

def digitalWriteLow (pin : Nat) (s : Controller) : Controller :=
  emit (.digitalWriteLow pin) { s with outputs := writePin pin 0 s.outputs }

def analogWrite (pin value : Nat) (s : Controller) : Controller :=
  emit (.analogWrite pin value) { s with outputs := writePin pin value s.outputs }

def delay (ms : Int) (s : Controller) : Controller :=
  emit (.delay (toULong ms)) s

/-! ## The sketch -/

/-- Values of the globals when the program starts; `p` are the pin levels
before `setup` runs.  `state` and `input` have no initialiser and start at 0,
which is `STANDBY` for `state`. -/
def powerOn (p : PumpOutputs) : Controller :=
  { state := .STANDBY, initial_activation := true, selected := false,
    size_selected := false, input := 0, outputs := p, log := [] }

def setup (s : Controller) : Controller :=
  let s := pinModeOutput pump1_pin s
  let s := pinModeOutput pump2_pin s
  let s := pinModeOutput pump3_pin s
  let s := pinModeOutput pump4_pin s
  let s := digitalWriteLow pump1_pin s
  let s := digitalWriteLow pump2_pin s
  let s := digitalWriteLow pump3_pin s
  let s := digitalWriteLow pump4_pin s
  s

def runPumps (pump1time pump2time pump3time pump4time _pump5time : Int)
    (s : Controller) : Controller :=
  let s := serialPrint "..." s
  let s := analogWrite pump1_pin pump_power s
  let s := delay (mulInt16 pump1time 1000) s
  let s := analogWrite pump1_pin 0 s
  let s := serialPrint "..." s
  let s := analogWrite pump2_pin pump_power s
  let s := delay (mulInt16 pump2time 1000) s
  let s := analogWrite pump2_pin 0 s
  let s := serialPrint "..." s
  let s := analogWrite pump3_pin pump_power s
  let s := delay (mulInt16 pump3time 1000) s
  let s := analogWrite pump3_pin 0 s
  let s := serialPrint "..." s
  let s := analogWrite pump4_pin pump_power s
  let s := delay (mulInt16 pump4time 1000) s
  let s := analogWrite pump4_pin 0 s
  s

def pumpsOn (p1_on p2_on p3_on p4_on _p5_on : Bool) (s : Controller) : Controller :=
  let s :=
    if p1_on then serialPrintln "pump 1 on" (analogWrite pump1_pin pump_power s)
    else serialPrintln "pump 1 off" (analogWrite pump1_pin 0 s)
  let s :=
    if p2_on then serialPrintln "pump 2 on" (analogWrite pump2_pin pump_power s)
    else serialPrintln "pump 2 off" (analogWrite pump2_pin 0 s)
  let s :=
    if p3_on then serialPrintln "pump 3 on" (analogWrite pump3_pin pump_power s)
    else serialPrintln "pump 3 off" (analogWrite pump3_pin 0 s)
  let s :=
    if p4_on then serialPrintln "pump 4 on" (analogWrite pump4_pin pump_power s)
    else serialPrintln "pump 4 off" (analogWrite pump4_pin 0 s)
  s

/-- Name of the recipe at a constant position of the table. -/
def recipeName (i : Fin 4) : String :=
  (recipe_array.get ⟨i.val, by simp [recipe_array]⟩).name

def printouts (input : String) (s : Controller) : Controller :=
  if input = "STANDBY" then
    let s := serialPrintln "------------------Awaiting instructions------------------------" s
    let s := serialPrintln "Press P to purge cycle, or press O for drink ordering" s
    s
  else if input = "TEST" then
    s
  else if input = "ORDERING" then
    let s := serialPrintln "------------------DRINK ORDERING--------------------------------" s
    let s := serialPrint "press A for " s
    let s := serialPrint (recipeName 0) s
    let s := serialPrint ", B for " s
    let s := serialPrintln (recipeName 1) s
    let s := serialPrint ", C for " s
    let s := serialPrintln (recipeName 2) s
    let s := serialPrint ", or D for " s
    let s := serialPrintln (recipeName 3) s
    s
  else if input = "sizing" then
    serialPrintln "press W for tall, X for grande, Y for venti, or Z for trenta" s
  else
    s

def runStandbyState (rd : SerialInput) (s : Controller) : Controller :=
  let s :=
    if s.initial_activation = true then
      { printouts "STANDBY" s with initial_activation := false }
    else s
  let input := toChar (serialRead rd)
  if input = code 'V' then
    { s with state := .TEST }
  else if input = code 'P' then
    { s with state := .CLEANING }
  else if input = code 'O' then
    { printouts "ORDERING" s with state := .DRINK_ORDERING }
  else
    { s with state := .STANDBY }

def runTestState (s : Controller) : Controller :=
  let s := serialPrintln "empty placeholder state, sending back to standby" s
  let s := printouts "STANDBY" s
  { s with state := .STANDBY }

def runCleaningState (rd : SerialInput) (s : Controller) : Controller :=
  let s := serialPrint "." s
  let s := delay 50 s
  let input := toChar (serialRead rd)
  let s := pumpsOn true true true true false s
  let pressed : Bool := if input = code 'P' then true else false
  if pressed = true then
    let s := pumpsOn false false false false false s
    let s := { s with state := .STANDBY }
    serialPrintln "done" s
  else s

/-- Body of `for (int i = 0; i <= 4; i++) Serial.println(recipe_array[input].quantities[i][1])`. -/
def printQuantities (s : Controller) : Option Controller :=
  (List.range 5).foldlM
    (fun (s : Controller) (i : Nat) => do
      let r ← index recipe_array s.input
      let row ← r.quantities[i]?
      let q ← row[1]?
      pure (serialPrintlnFloat q s))
    s

def runOrderingState (rd : SerialInput) (s : Controller) : Option Controller :=
  let drink_input := toChar (serialRead rd)
  let s := if drink_input = code 'A' then { s with input := 0, selected := true } else s
  let s := if drink_input = code 'B' then { s with input := 1, selected := true } else s
  let s := if drink_input = code 'C' then { s with input := 2, selected := true } else s
  let s :=
    if drink_input = code 'D' then { s with input := 3, selected := true }
    else { s with state := .DRINK_ORDERING }
  if s.selected = true then do
    let r ← index recipe_array s.input
    let s := serialPrint r.name s
    let s := serialPrintln " selected" s
    let s ← printQuantities s
    let s := { s with size_selected := false }
    let s := printouts "sizing" s
    pure { s with state := .SIZE_ORDERING }
  else
    some s

/-- Quantity `recipe_array[input].quantities[i][1]`. -/
def quantity (input : Int) (i : Nat) : Option ℚ := do
  let r ← index recipe_array input
  let row ← r.quantities[i]?
  row[1]?

def runSizeOrderingState (rd : SerialInput) (s : Controller) : Option Controller :=
  let size_input := toChar (serialRead rd)
  -- locals: `size_selected` starts false, `size` starts without a value
  let sel : Controller × Bool × Option Int :=
    if size_input = code 'W' then (serialPrintln "one selected" s, true, some 0)
    else if size_input = code 'X' then (s, true, some 1)
    else if size_input = code 'Y' then (s, true, some 2)
    else if size_input = code 'Z' then (s, true, some 3)
    else (s, false, none)
  let s := sel.1
  let size_selected := sel.2.1
  let size := sel.2.2
  if size_selected = true then do
    let size ← size
    let row ← index drink_sizes size
    let ounces : Int ← row[1]?
    let pump_1_oz := floatMul (← quantity s.input 0) (intToFloat ounces)
    let pump_2_oz := floatMul (← quantity s.input 1) (intToFloat ounces)
    let pump_3_oz := floatMul (← quantity s.input 2) (intToFloat ounces)
    let pump_4_oz := floatMul (← quantity s.input 3) (intToFloat ounces)
    let water_oz := floatMul (← quantity s.input 4) (intToFloat ounces)
    let pump_1_time := floatDiv pump_1_oz flow_rate
    let pump_2_time := floatDiv pump_2_oz flow_rate
    let pump_3_time := floatDiv pump_3_oz flow_rate
    let pump_4_time := floatDiv pump_4_oz flow_rate
    let s := serialPrintln "pump oz:" s
    let s := serialPrintlnFloat pump_1_oz s
    let s := serialPrintlnFloat pump_2_oz s
    let s := serialPrintlnFloat pump_3_oz s
    let s := serialPrintlnFloat pump_4_oz s
    let s := serialPrintlnFloat water_oz s
    let s := serialPrintln "run times:" s
    let s := serialPrintlnFloat pump_1_time s
    let s := serialPrintlnFloat pump_2_time s
    let s := serialPrintlnFloat pump_3_time s
    let s := serialPrintlnFloat pump_4_time s
    let s := runPumps (floatToInt pump_1_time) (floatToInt pump_2_time)
      (floatToInt pump_3_time) (floatToInt pump_4_time) 0 s
    let s := serialPrintln "finished" s
    let s := printouts "STANDBY" s
    pure { s with state := .STANDBY }
  else
    some s

/-- One iteration of `loop()`; `rd` is what `Serial.read()` returns if the
active handler calls it. -/
def loop (rd : SerialInput) (s : Controller) : Option Controller :=
  match s.state with
  | .STANDBY => some (runStandbyState rd s)
  | .TEST => some (runTestState s)
  | .CLEANING => some (runCleaningState rd s)
  | .DRINK_ORDERING => runOrderingState rd { s with selected := false }
  | .SIZE_ORDERING => runSizeOrderingState rd s

/-- Consecutive iterations of `loop()`, one serial input per iteration. -/
def run (rds : List SerialInput) (s : Controller) : Option Controller :=
  rds.foldlM (fun s rd => loop rd s) s

/-- Controller after `setup()` with every pin low beforehand. -/
def start : Controller := setup (powerOn ⟨0, 0, 0, 0⟩)

/-! ## Observation functions used to state the properties -/

/-- Events appended to the log between controller `s` and a later controller `t`. -/
def emitted (s t : Controller) : List Event := t.log.drop s.log.length

/-- Arguments of the `delay` calls of a log segment, in milliseconds. -/
def delays (evs : List Event) : List Nat :=
  evs.filterMap fun e => match e with
    | .delay ms => some ms
    | _ => none

/-- The `analogWrite` calls of a log segment, in order. -/
def pumpWrites (evs : List Event) : List Event :=
  evs.filter fun e => match e with
    | .analogWrite _ _ => true
    | _ => false

/-- Pin levels after performing the pin writes of a log segment. -/
def replay (o : PumpOutputs) (evs : List Event) : PumpOutputs :=
  evs.foldl
    (fun o e => match e with
      | .analogWrite pin value => writePin pin value o
      | .digitalWriteLow pin => writePin pin 0 o
      | _ => o)
    o

/-- Pin of pump `i + 1`. -/
def pumpPin (i : Fin 4) : Nat :=
  match i with
  | 0 => pump1_pin
  | 1 => pump2_pin
  | 2 => pump3_pin
  | 3 => pump4_pin

/-- Level of the output of pump `i + 1`. -/
def level (o : PumpOutputs) (i : Fin 4) : Nat :=
  match i with
  | 0 => o.pump1
  | 1 => o.pump2
  | 2 => o.pump3
  | 3 => o.pump4

/-- All four pump outputs off. -/
def allOff : PumpOutputs := ⟨0, 0, 0, 0⟩

/-- All four pump outputs at the on power level. -/
def allOn : PumpOutputs := ⟨pump_power, pump_power, pump_power, pump_power⟩

/-- Number of pump outputs that are on. -/
def onCount (o : PumpOutputs) : Nat :=
  (if o.pump1 = 0 then 0 else 1) + (if o.pump2 = 0 then 0 else 1)
    + (if o.pump3 = 0 then 0 else 1) + (if o.pump4 = 0 then 0 else 1)

/-- Values printed by the leading run of float lines of a log segment. -/
def leadingFloats : List Event → List ℚ
  | .printlnFloat q :: rest => q :: leadingFloats rest
  | _ => []

/-- Values printed directly after the first occurrence of a heading line. -/
def floatsAfter (heading : String) : List Event → List ℚ
  | [] => []
  | e :: rest =>
    if e = .println heading then leadingFloats rest else floatsAfter heading rest

/-- Run times `pump_1_time .. pump_4_time` as reported in a log segment. -/
def runTimes (evs : List Event) : List ℚ := floatsAfter "run times:" evs

/-- Ratio `recipe_array[r].quantities[i][1]`, 0 outside the table. -/
def ratio (r i : Nat) : ℚ := (quantity (r : Int) i).getD 0

/-- Volume `recipe_array[r].quantities[i][1] * ounces` as the handler computes
it for a size of `v` ounces. -/
def pumpOz (r i : Nat) (v : Int) : ℚ := floatMul (ratio r i) (intToFloat v)

/-- Run time `pump_oz / flow_rate` as the handler computes it. -/
def pumpTime (r i : Nat) (v : Int) : ℚ := floatDiv (pumpOz r i v) flow_rate

/-- Size commands with the volume in ounces that the size table gives them. -/
def sizeCommands : List (Char × Int) := [('W', 12), ('X', 16), ('Y', 20), ('Z', 30)]

/-- Recipe commands with the recipe index they select. -/
def recipeCommands : List (Char × Nat) := [('A', 0), ('B', 1), ('C', 2), ('D', 3)]

/-- Transition table of the dispensing state machine, as the specification
gives it (state, input, next state). -/
def transitionTable (st : StateMachineState) (rd : SerialInput) : StateMachineState :=
  match st with
  | .STANDBY =>
    if rd = key 'P' then .CLEANING
    else if rd = key 'O' then .DRINK_ORDERING
    else if rd = key 'V' then .TEST
    else .STANDBY
  | .TEST => .STANDBY
  | .CLEANING => if rd = key 'P' then .STANDBY else .CLEANING
  | .DRINK_ORDERING =>
    if rd = key 'A' ∨ rd = key 'B' ∨ rd = key 'C' ∨ rd = key 'D' then .SIZE_ORDERING
    else .DRINK_ORDERING
  | .SIZE_ORDERING =>
    if rd = key 'W' ∨ rd = key 'X' ∨ rd = key 'Y' ∨ rd = key 'Z' then .STANDBY
    else .SIZE_ORDERING

/-- Controller after start-up and the order command `O`: waiting for a recipe. -/
def awaitingRecipe : Controller := (loop (key 'O') start).getD start

/-- Controller after start-up, `O` and the recipe command `B`: waiting for a size. -/
def awaitingSize : Controller := (loop (key 'B') awaitingRecipe).getD start

/-- Controller after start-up and the purge command `P`: cleaning. -/
def cleaning : Controller := (loop (key 'P') start).getD start

/-- Pump writes of the timed sequential run: on and off for pumps 1 to 4. -/
def sequentialWrites : List Event :=
  [.analogWrite pump1_pin pump_power, .analogWrite pump1_pin 0,
   .analogWrite pump2_pin pump_power, .analogWrite pump2_pin 0,
   .analogWrite pump3_pin pump_power, .analogWrite pump3_pin 0,
   .analogWrite pump4_pin pump_power, .analogWrite pump4_pin 0]

/-- Lines of `printouts("STANDBY")`. -/
def standbyMenu : List Event :=
  [.println "------------------Awaiting instructions------------------------",
   .println "Press P to purge cycle, or press O for drink ordering"]

/-- Lines of `printouts("ORDERING")`. -/
def orderingMenu : List Event :=
  [.println "------------------DRINK ORDERING--------------------------------",
   .print "press A for ", .print (recipeName 0),
   .print ", B for ", .println (recipeName 1),
   .print ", C for ", .println (recipeName 2),
   .print ", or D for ", .println (recipeName 3)]

/-- Lines of `printouts("sizing")`. -/
def sizingMenu : List Event :=
  [.println "press W for tall, X for grande, Y for venti, or Z for trenta"]

/-- Events of one call of `runPumps`. -/
def pumpEvents (t1 t2 t3 t4 : Int) : List Event :=
  [.print "...", .analogWrite pump1_pin pump_power,
   .delay (toULong (mulInt16 t1 1000)), .analogWrite pump1_pin 0,
   .print "...", .analogWrite pump2_pin pump_power,
   .delay (toULong (mulInt16 t2 1000)), .analogWrite pump2_pin 0,
   .print "...", .analogWrite pump3_pin pump_power,
   .delay (toULong (mulInt16 t3 1000)), .analogWrite pump3_pin 0,
   .print "...", .analogWrite pump4_pin pump_power,
   .delay (toULong (mulInt16 t4 1000)), .analogWrite pump4_pin 0]

/-- Events of the `RECIPE_SELECT` handler when recipe `r` is chosen. -/
def selectEvents (r : Nat) : List Event :=
  [.print ((recipe_array.getD r ⟨"", []⟩).name), .println " selected",
   .printlnFloat (ratio r 0), .printlnFloat (ratio r 1), .printlnFloat (ratio r 2),
   .printlnFloat (ratio r 3), .printlnFloat (ratio r 4)] ++ sizingMenu

/-- Events of the `SIZE_SELECT` handler when size command `c` with volume
`v` ounces arrives while recipe `r` is pending. -/
def dispenseEvents (c : Char) (r : Nat) (v : Int) : List Event :=
  (if c = 'W' then [.println "one selected"] else []) ++
  [.println "pump oz:",
   .printlnFloat (pumpOz r 0 v), .printlnFloat (pumpOz r 1 v),
   .printlnFloat (pumpOz r 2 v), .printlnFloat (pumpOz r 3 v),
   .printlnFloat (pumpOz r 4 v),
   .println "run times:",
   .printlnFloat (pumpTime r 0 v), .printlnFloat (pumpTime r 1 v),
   .printlnFloat (pumpTime r 2 v), .printlnFloat (pumpTime r 3 v)] ++
  pumpEvents (floatToInt (pumpTime r 0 v)) (floatToInt (pumpTime r 1 v))
    (floatToInt (pumpTime r 2 v)) (floatToInt (pumpTime r 3 v)) ++
  [.println "finished"] ++ standbyMenu

/-- Controllers that the sketch can be in at the start of an iteration of
`loop()`: after `setup()`, and after any iteration from such a controller. -/
inductive Reachable : Controller → Prop where
  | boot (p : PumpOutputs) : Reachable (setup (powerOn p))
  | tick {s t : Controller} (rd : SerialInput) :
      Reachable s → loop rd s = some t → Reachable t

/-- The recipe index is a position of the recipe table. -/
def validRecipeIndex (i : Int) : Prop := 0 ≤ i ∧ i < 4

instance (i : Int) : Decidable (validRecipeIndex i) := by
  unfold validRecipeIndex; infer_instance

/-- Invariant of the controller at iteration boundaries: the pending recipe
index is a position of the recipe table, and the pumps are off outside
`CLEANING`. -/
def Inv (s : Controller) : Prop :=
  validRecipeIndex s.input ∧ (s.state ≠ .CLEANING → s.outputs = allOff)

/-- Second invariant of the controller at iteration boundaries: the global
`size_selected` flag is false, and `selected` is true while a size is
awaited. -/
def SelectionInv (s : Controller) : Prop :=
  s.size_selected = false ∧ (s.state = .SIZE_ORDERING → s.selected = true)

/-- Texts written to the status channel by `print` and `println` in a log
segment. -/
def printedTexts (evs : List Event) : List String :=
  evs.filterMap fun e => match e with
    | .print text => some text
    | .println text => some text
    | _ => none

/-- Status emissions (serial output) of a log segment. -/
def statusEvents (evs : List Event) : List Event :=
  evs.filter fun e => match e with
    | .print _ => true
    | .println _ => true
    | .printlnFloat _ => true
    | _ => false

/-- Concentrate volumes `pump_1_oz .. pump_4_oz` as reported in a log segment
(the fifth value under the heading is `water_oz`). -/
def pumpOunces (evs : List Event) : List ℚ := (floatsAfter "pump oz:" evs).take 4

/-- Volume in ounces of the size table entry `j`, 0 outside the table. -/
def sizeOunces (j : Nat) : Int := ((drink_sizes.getD j []).getD 1 0)

/-- Controller after start-up, `O` and the recipe command `A`: test drink pending. -/
def awaitingSizeTest : Controller := (loop (key 'A') awaitingRecipe).getD start

/-! ## Basic facts -/

theorem readChar_eq_iff (rd : SerialInput) (c : Char) (hc : c.toNat < 128) :
    toChar (serialRead rd) = code c ↔ rd = key c := by
  unfold toChar serialRead code key
  cases rd with
  | none => simp
  | some b =>
    have hb := b.isLt
    simp only [Option.some.injEq, Fin.ext_iff, Fin.ofNat]
    constructor
    · intro h; omega
    · intro h; omega

theorem printouts_standby (s : Controller) :
    printouts "STANDBY" s =
      { s with log := s.log ++
          [.println "------------------Awaiting instructions------------------------",
           .println "Press P to purge cycle, or press O for drink ordering"] } := by
  simp [printouts, serialPrintln, emit]

theorem printouts_sizing (s : Controller) :
    printouts "sizing" s =
      { s with log := s.log ++
          [.println "press W for tall, X for grande, Y for venti, or Z for trenta"] } := by
  simp [printouts, serialPrintln, emit]

theorem pumpsOn_all (s : Controller) :
    pumpsOn true true true true false s =
      { s with outputs := allOn, log := s.log ++
          [.analogWrite pump1_pin pump_power, .println "pump 1 on",
           .analogWrite pump2_pin pump_power, .println "pump 2 on",
           .analogWrite pump3_pin pump_power, .println "pump 3 on",
           .analogWrite pump4_pin pump_power, .println "pump 4 on"] } := by
  simp [pumpsOn, serialPrintln, analogWrite, emit, writePin, allOn, pump1_pin, pump2_pin,
    pump3_pin, pump4_pin]

theorem pumpsOn_none (s : Controller) :
    pumpsOn false false false false false s =
      { s with outputs := allOff, log := s.log ++
          [.analogWrite pump1_pin 0, .println "pump 1 off",
           .analogWrite pump2_pin 0, .println "pump 2 off",
           .analogWrite pump3_pin 0, .println "pump 3 off",
           .analogWrite pump4_pin 0, .println "pump 4 off"] } := by
  simp [pumpsOn, serialPrintln, analogWrite, emit, writePin, allOff, pump1_pin, pump2_pin,
    pump3_pin, pump4_pin]

theorem runCleaningState_eq (rd : SerialInput) (s : Controller) :
    runCleaningState rd s =
      if rd = key 'P' then
        { s with state := .STANDBY, outputs := allOff, log := s.log ++
          [.print ".", .delay 50,
           .analogWrite pump1_pin pump_power, .println "pump 1 on",
           .analogWrite pump2_pin pump_power, .println "pump 2 on",
           .analogWrite pump3_pin pump_power, .println "pump 3 on",
           .analogWrite pump4_pin pump_power, .println "pump 4 on",
           .analogWrite pump1_pin 0, .println "pump 1 off",
           .analogWrite pump2_pin 0, .println "pump 2 off",
           .analogWrite pump3_pin 0, .println "pump 3 off",
           .analogWrite pump4_pin 0, .println "pump 4 off",
           .println "done"] }
      else
        { s with outputs := allOn, log := s.log ++
          [.print ".", .delay 50,
           .analogWrite pump1_pin pump_power, .println "pump 1 on",
           .analogWrite pump2_pin pump_power, .println "pump 2 on",
           .analogWrite pump3_pin pump_power, .println "pump 3 on",
           .analogWrite pump4_pin pump_power, .println "pump 4 on"] } := by
  simp only [runCleaningState, pumpsOn_all, pumpsOn_none,
    readChar_eq_iff rd 'P' (by decide)]
  by_cases h : rd = key 'P' <;>
    simp [h, serialPrint, serialPrintln, delay, emit, toULong]

theorem printouts_ordering (s : Controller) :
    printouts "ORDERING" s = { s with log := s.log ++ orderingMenu } := by
  simp [printouts, serialPrintln, serialPrint, emit, orderingMenu]

theorem runPumps_eq (t1 t2 t3 t4 t5 : Int) (s : Controller) :
    runPumps t1 t2 t3 t4 t5 s =
      { s with outputs := allOff, log := s.log ++ pumpEvents t1 t2 t3 t4 } := by
  simp [runPumps, serialPrint, analogWrite, delay, emit, writePin, allOff, pumpEvents,
    pump1_pin, pump2_pin, pump3_pin, pump4_pin]

theorem runStandbyState_eq (rd : SerialInput) (s : Controller) :
    runStandbyState rd s =
      { s with
        state := transitionTable .STANDBY rd
        initial_activation := false
        log := s.log ++ (if s.initial_activation = true then standbyMenu else []) ++
          (if rd = key 'O' then orderingMenu else []) } := by
  have hPV : key 'P' ≠ key 'V' := by decide
  have hOV : key 'O' ≠ key 'V' := by decide
  have hOP : key 'O' ≠ key 'P' := by decide
  simp only [runStandbyState, printouts_standby, printouts_ordering, transitionTable,
    readChar_eq_iff rd 'P' (by decide), readChar_eq_iff rd 'V' (by decide),
    readChar_eq_iff rd 'O' (by decide)]
  obtain ⟨st, ia, sel, ss, inp, outs, log⟩ := s
  cases ia <;> by_cases hV : rd = key 'V' <;> by_cases hP : rd = key 'P' <;>
    by_cases hO : rd = key 'O' <;> simp_all [standbyMenu]

theorem runTestState_eq (s : Controller) :
    runTestState s =
      { s with
        state := .STANDBY
        log := s.log ++
          [.println "empty placeholder state, sending back to standby"] ++ standbyMenu } := by
  simp [runTestState, printouts_standby, serialPrintln, emit, standbyMenu]

theorem key_eq_key (c d : Char) (hc : c.toNat < 128) (hd : d.toNat < 128) :
    key c = key d ↔ c = d := by
  constructor
  · intro h
    simp only [key, Option.some.injEq, Fin.ext_iff, Fin.ofNat] at h
    apply Char.ext
    apply UInt32.ext
    have : c.toNat = d.toNat := by omega
    simpa [Char.toNat, UInt32.toNat] using this
  · intro h; rw [h]

theorem readKey_eq_iff (c d : Char) (hc : c.toNat < 128) (hd : d.toNat < 128) :
    toChar (serialRead (key c)) = code d ↔ c = d := by
  rw [readChar_eq_iff _ d hd, key_eq_key c d hc hd]

theorem range_five : List.range 5 = [0, 1, 2, 3, 4] := by decide

theorem runOrderingState_select (s : Controller) (c : Char) (r : Nat)
    (hc : (c, r) ∈ recipeCommands) (hsel : s.selected = false) :
    runOrderingState (key c) s =
      some { s with
        state := .SIZE_ORDERING
        selected := true
        size_selected := false
        input := (r : Int)
        log := s.log ++ selectEvents r } := by
  obtain ⟨st, ia, sel, ss, inp, outs, log⟩ := s
  simp only at hsel
  subst hsel
  simp only [recipeCommands, List.mem_cons, Prod.mk.injEq, List.mem_nil_iff, or_false] at hc
  rcases hc with ⟨rfl, rfl⟩ | ⟨rfl, rfl⟩ | ⟨rfl, rfl⟩ | ⟨rfl, rfl⟩ <;>
    simp [runOrderingState, printQuantities, range_five, printouts_sizing, index, recipe_array,
      serialPrint, serialPrintln, serialPrintlnFloat, emit, selectEvents, sizingMenu, ratio,
      quantity, readKey_eq_iff]

theorem runOrderingState_other (s : Controller) (rd : SerialInput)
    (hrd : ¬ (rd = key 'A' ∨ rd = key 'B' ∨ rd = key 'C' ∨ rd = key 'D'))
    (hsel : s.selected = false) :
    runOrderingState rd s = some { s with state := .DRINK_ORDERING } := by
  obtain ⟨st, ia, sel, ss, inp, outs, log⟩ := s
  simp only at hsel
  subst hsel
  simp only [not_or] at hrd
  simp [runOrderingState, readChar_eq_iff rd 'A' (by decide), readChar_eq_iff rd 'B' (by decide),
    readChar_eq_iff rd 'C' (by decide), readChar_eq_iff rd 'D' (by decide), hrd]

theorem quantity_valid (inp : Int) (hin : validRecipeIndex inp) (i : Nat) (hi : i < 5) :
    quantity inp i = some (ratio inp.toNat i) := by
  obtain ⟨h0, h4⟩ := hin
  interval_cases inp <;> interval_cases i <;> decide!

theorem runSizeOrderingState_dispense (s : Controller) (c : Char) (v : Int)
    (hc : (c, v) ∈ sizeCommands) (hin : validRecipeIndex s.input) :
    runSizeOrderingState (key c) s =
      some { s with
        state := .STANDBY
        outputs := allOff
        log := s.log ++ dispenseEvents c s.input.toNat v } := by
  have hq := quantity_valid s.input hin
  simp only [sizeCommands, List.mem_cons, Prod.mk.injEq, List.mem_nil_iff, or_false] at hc
  rcases hc with ⟨rfl, rfl⟩ | ⟨rfl, rfl⟩ | ⟨rfl, rfl⟩ | ⟨rfl, rfl⟩ <;>
    simp [runSizeOrderingState, runPumps_eq, printouts_standby, index, drink_sizes,
      serialPrintln, serialPrintlnFloat, emit, dispenseEvents, standbyMenu, pumpOz, pumpTime,
      hq 0 (by decide), hq 1 (by decide), hq 2 (by decide), hq 3 (by decide),
      hq 4 (by decide), readKey_eq_iff]

theorem runSizeOrderingState_other (s : Controller) (rd : SerialInput)
    (hrd : ¬ (rd = key 'W' ∨ rd = key 'X' ∨ rd = key 'Y' ∨ rd = key 'Z')) :
    runSizeOrderingState rd s = some s := by
  simp only [not_or] at hrd
  simp [runSizeOrderingState, readChar_eq_iff rd 'W' (by decide),
    readChar_eq_iff rd 'X' (by decide), readChar_eq_iff rd 'Y' (by decide),
    readChar_eq_iff rd 'Z' (by decide), hrd]

theorem recipe_key_cases (rd : SerialInput)
    (h : rd = key 'A' ∨ rd = key 'B' ∨ rd = key 'C' ∨ rd = key 'D') :
    ∃ c r, (c, r) ∈ recipeCommands ∧ rd = key c := by
  rcases h with h | h | h | h
  · exact ⟨'A', 0, by simp [recipeCommands], h⟩
  · exact ⟨'B', 1, by simp [recipeCommands], h⟩
  · exact ⟨'C', 2, by simp [recipeCommands], h⟩
  · exact ⟨'D', 3, by simp [recipeCommands], h⟩

theorem size_key_cases (rd : SerialInput)
    (h : rd = key 'W' ∨ rd = key 'X' ∨ rd = key 'Y' ∨ rd = key 'Z') :
    ∃ c v, (c, v) ∈ sizeCommands ∧ rd = key c := by
  rcases h with h | h | h | h
  · exact ⟨'W', 12, by simp [sizeCommands], h⟩
  · exact ⟨'X', 16, by simp [sizeCommands], h⟩
  · exact ⟨'Y', 20, by simp [sizeCommands], h⟩
  · exact ⟨'Z', 30, by simp [sizeCommands], h⟩

theorem recipeCommands_index (c : Char) (r : Nat) (h : (c, r) ∈ recipeCommands) :
    validRecipeIndex (r : Int) ∧ (r : Int) = code c - code 'A' := by
  simp only [recipeCommands, List.mem_cons, Prod.mk.injEq, List.mem_nil_iff, or_false] at h
  rcases h with ⟨rfl, rfl⟩ | ⟨rfl, rfl⟩ | ⟨rfl, rfl⟩ | ⟨rfl, rfl⟩ <;> decide

theorem setup_inv (p : PumpOutputs) : Inv (setup (powerOn p)) := by
  refine ⟨?_, fun _ => ?_⟩
  · simp [setup, powerOn, pinModeOutput, digitalWriteLow, emit, validRecipeIndex]
  · simp [setup, powerOn, pinModeOutput, digitalWriteLow, emit, writePin, allOff, pump1_pin,
      pump2_pin, pump3_pin, pump4_pin]

theorem loop_inv (rd : SerialInput) (s t : Controller) (hs : Inv s)
    (h : loop rd s = some t) : Inv t := by
  obtain ⟨hin, hout⟩ := hs
  unfold loop at h
  split at h
  next hst =>
    rw [runStandbyState_eq] at h
    simp only [Option.some.injEq] at h
    subst h
    exact ⟨hin, fun _ => hout (by simp [hst])⟩
  next hst =>
    rw [runTestState_eq] at h
    simp only [Option.some.injEq] at h
    subst h
    exact ⟨hin, fun _ => hout (by simp [hst])⟩
  next hst =>
    rw [runCleaningState_eq] at h
    simp only [Option.some.injEq] at h
    subst h
    refine ⟨by split <;> exact hin, ?_⟩
    split
    · intro _; rfl
    · intro hne; exact absurd hst hne
  next hst =>
    by_cases hrd : rd = key 'A' ∨ rd = key 'B' ∨ rd = key 'C' ∨ rd = key 'D'
    · obtain ⟨c, r, hc, rfl⟩ := recipe_key_cases rd hrd
      rw [runOrderingState_select _ c r hc rfl] at h
      simp only [Option.some.injEq] at h
      subst h
      exact ⟨(recipeCommands_index c r hc).1, fun _ => hout (by simp [hst])⟩
    · rw [runOrderingState_other _ rd hrd rfl] at h
      simp only [Option.some.injEq] at h
      subst h
      exact ⟨hin, fun _ => hout (by simp [hst])⟩
  next hst =>
    by_cases hrd : rd = key 'W' ∨ rd = key 'X' ∨ rd = key 'Y' ∨ rd = key 'Z'
    · obtain ⟨c, v, hc, rfl⟩ := size_key_cases rd hrd
      rw [runSizeOrderingState_dispense s c v hc hin] at h
      simp only [Option.some.injEq] at h
      subst h
      exact ⟨hin, fun _ => rfl⟩
    · rw [runSizeOrderingState_other s rd hrd] at h
      simp only [Option.some.injEq] at h
      subst h
      exact ⟨hin, hout⟩

theorem reachable_inv (s : Controller) (h : Reachable s) : Inv s := by
  induction h with
  | boot p => exact setup_inv p
  | tick rd _ hstep ih => exact loop_inv rd _ _ ih hstep

theorem emitted_append (s : Controller) (t : Controller) (evs : List Event)
    (h : t.log = s.log ++ evs) : emitted s t = evs := by
  simp [emitted, h]

theorem runTimes_dispenseEvents (c : Char) (r : Nat) (v : Int) :
    runTimes (dispenseEvents c r v) =
      [pumpTime r 0 v, pumpTime r 1 v, pumpTime r 2 v, pumpTime r 3 v] := by
  by_cases hc : c = 'W' <;>
    simp [runTimes, dispenseEvents, floatsAfter, leadingFloats, pumpEvents, hc]

theorem lemonade_grande_times :
    [pumpTime 1 0 16, pumpTime 1 1 16, pumpTime 1 2 16, pumpTime 1 3 16]
      = [13421773 / 4194304, 0, 0, 13421773 / 4194304] := by
  decide!

theorem sizeCommands_sizeOunces (c : Char) (v : Int) (hc : (c, v) ∈ sizeCommands) :
    ∃ j : Fin 4, v = sizeOunces j.val := by
  simp only [sizeCommands, List.mem_cons, Prod.mk.injEq, List.mem_nil_iff, or_false] at hc
  rcases hc with ⟨_, rfl⟩ | ⟨_, rfl⟩ | ⟨_, rfl⟩ | ⟨_, rfl⟩
  · exact ⟨0, by decide⟩
  · exact ⟨1, by decide⟩
  · exact ⟨2, by decide⟩
  · exact ⟨3, by decide⟩

theorem recipeCommands_fin (c : Char) (r : Nat) (hc : (c, r) ∈ recipeCommands) :
    ∃ rv : Fin 4, r = rv.val := by
  simp only [recipeCommands, List.mem_cons, Prod.mk.injEq, List.mem_nil_iff, or_false] at hc
  rcases hc with ⟨_, rfl⟩ | ⟨_, rfl⟩ | ⟨_, rfl⟩ | ⟨_, rfl⟩
  · exact ⟨0, rfl⟩
  · exact ⟨1, rfl⟩
  · exact ⟨2, rfl⟩
  · exact ⟨3, rfl⟩

theorem table_pumpTime (r j i : Fin 4) :
    pumpOz r.val i.val (sizeOunces j.val) = ratio r.val i.val * sizeOunces j.val ∧
    pumpTime r.val i.val (sizeOunces j.val)
      = roundFloat32 (ratio r.val i.val * sizeOunces j.val / flow_rate) ∧
    ratio r.val i.val * sizeOunces j.val / flow_rate * (1 - 1 / 2 ^ 24)
      ≤ pumpTime r.val i.val (sizeOunces j.val) ∧
    pumpTime r.val i.val (sizeOunces j.val)
      ≤ ratio r.val i.val * sizeOunces j.val / flow_rate * (1 + 1 / 2 ^ 24) ∧
    floatToInt (pumpTime r.val i.val (sizeOunces j.val))
      = floatToInt (ratio r.val i.val * sizeOunces j.val / flow_rate) := by
  fin_cases r <;> fin_cases j <;> fin_cases i <;> decide!

theorem loop_select (s : Controller) (c : Char) (r : Nat)
    (hst : s.state = .DRINK_ORDERING) (hc : (c, r) ∈ recipeCommands) :
    loop (key c) s =
      some { s with
        state := .SIZE_ORDERING
        selected := true
        size_selected := false
        input := (r : Int)
        log := s.log ++ selectEvents r } := by
  simp only [loop, hst]
  exact runOrderingState_select _ c r hc rfl

theorem loop_dispense (s : Controller) (c : Char) (v : Int)
    (hst : s.state = .SIZE_ORDERING) (hc : (c, v) ∈ sizeCommands)
    (hin : validRecipeIndex s.input) :
    loop (key c) s =
      some { s with
        state := .STANDBY
        outputs := allOff
        log := s.log ++ dispenseEvents c s.input.toNat v } := by
  simp only [loop, hst]
  exact runSizeOrderingState_dispense _ c v hc hin

theorem loop_ordering_other (s : Controller) (rd : SerialInput)
    (hst : s.state = .DRINK_ORDERING)
    (hrd : ¬ (rd = key 'A' ∨ rd = key 'B' ∨ rd = key 'C' ∨ rd = key 'D')) :
    loop rd s = some { s with selected := false, state := .DRINK_ORDERING } := by
  simp only [loop, hst]
  exact runOrderingState_other _ rd hrd rfl

theorem loop_size_other (s : Controller) (rd : SerialInput)
    (hst : s.state = .SIZE_ORDERING)
    (hrd : ¬ (rd = key 'W' ∨ rd = key 'X' ∨ rd = key 'Y' ∨ rd = key 'Z')) :
    loop rd s = some s := by
  simp only [loop, hst]
  exact runSizeOrderingState_other _ rd hrd

/-! ## Properties of the specification -/

/-- Counterexample to C1 as stated: for lemonade (`B`) at 16 oz (`X`) the
formula `ratio * V / flow_rate` gives 3.2, 0, 0, 3.2, but the run times the
handler computes are `float` values, and 3.2 is not one: pumps 1 and 4 get
13421773/4194304, the single-precision value nearest to 3.2. -/
theorem lemonade_grande_run_times :
    awaitingSize.state = .SIZE_ORDERING ∧ awaitingSize.input = 1 ∧
    [ratio 1 0 * ((16 : Int) : ℚ) / flow_rate, ratio 1 1 * ((16 : Int) : ℚ) / flow_rate,
     ratio 1 2 * ((16 : Int) : ℚ) / flow_rate, ratio 1 3 * ((16 : Int) : ℚ) / flow_rate]
      = [16 / 5, 0, 0, 16 / 5] ∧
    ∃ t, loop (key 'X') awaitingSize = some t ∧
      runTimes (emitted awaitingSize t) = [13421773 / 4194304, 0, 0, 13421773 / 4194304] ∧
      runTimes (emitted awaitingSize t) ≠ [16 / 5, 0, 0, 16 / 5] := by
  refine ⟨by decide, by decide, by decide!, (loop (key 'X') awaitingSize).getD start,
    ?_, ?_, ?_⟩ <;> decide!

/-- C1, amended: from `RECIPE_SELECT`, a recipe command `A`..`D` records
recipe index `r`, and the following size command `W`/`X`/`Y`/`Z` (12, 16, 20,
30 oz) makes the `SIZE_SELECT` handler compute, for each of the four pumps,
the single-precision value nearest to
`recipe_array[r].quantities[i][1] * V / flow_rate`, which differs from it by
at most the fraction `2 ^ -24` of it; for lemonade (`B`) at 16 oz (`X`) the
run times are 13421773/4194304 (the `float` nearest 3.2), 0, 0,
13421773/4194304. -/
theorem size_select_durations (s : Controller) (c : Char) (r : Nat) (z : Char) (v : Int)
    (hst : s.state = .DRINK_ORDERING) (hc : (c, r) ∈ recipeCommands)
    (hz : (z, v) ∈ sizeCommands) :
    ∃ s1 s2, loop (key c) s = some s1 ∧ s1.input = (r : Int) ∧
      loop (key z) s1 = some s2 ∧
      runTimes (emitted s1 s2) =
        [roundFloat32 (ratio r 0 * v / flow_rate), roundFloat32 (ratio r 1 * v / flow_rate),
         roundFloat32 (ratio r 2 * v / flow_rate), roundFloat32 (ratio r 3 * v / flow_rate)] ∧
      (∀ i : Fin 4,
        ratio r i.val * v / flow_rate * (1 - 1 / 2 ^ 24)
          ≤ roundFloat32 (ratio r i.val * v / flow_rate) ∧
        roundFloat32 (ratio r i.val * v / flow_rate)
          ≤ ratio r i.val * v / flow_rate * (1 + 1 / 2 ^ 24)) ∧
      (c = 'B' ∧ z = 'X' →
        runTimes (emitted s1 s2) = [13421773 / 4194304, 0, 0, 13421773 / 4194304]) := by
  have hvalid := (recipeCommands_index c r hc).1
  obtain ⟨rv, rfl⟩ := recipeCommands_fin c r hc
  obtain ⟨jv, rfl⟩ := sizeCommands_sizeOunces z v hz
  refine ⟨_, _, loop_select s c _ hst hc, rfl, loop_dispense _ z _ rfl hz hvalid, ?_, ?_, ?_⟩
  · rw [emitted_append _ _ _ rfl, runTimes_dispenseEvents]
    have h0 : pumpTime rv.val 0 (sizeOunces jv.val)
        = roundFloat32 (ratio rv.val 0 * sizeOunces jv.val / flow_rate) :=
      (table_pumpTime rv jv 0).2.1
    have h1 : pumpTime rv.val 1 (sizeOunces jv.val)
        = roundFloat32 (ratio rv.val 1 * sizeOunces jv.val / flow_rate) :=
      (table_pumpTime rv jv 1).2.1
    have h2 : pumpTime rv.val 2 (sizeOunces jv.val)
        = roundFloat32 (ratio rv.val 2 * sizeOunces jv.val / flow_rate) :=
      (table_pumpTime rv jv 2).2.1
    have h3 : pumpTime rv.val 3 (sizeOunces jv.val)
        = roundFloat32 (ratio rv.val 3 * sizeOunces jv.val / flow_rate) :=
      (table_pumpTime rv jv 3).2.1
    change [pumpTime rv.val 0 _, pumpTime rv.val 1 _, pumpTime rv.val 2 _, pumpTime rv.val 3 _]
      = _
    rw [h0, h1, h2, h3]
  · intro i
    have h := table_pumpTime rv jv i
    rw [h.2.1] at h
    exact ⟨h.2.2.1, h.2.2.2.1⟩
  · rintro ⟨rfl, rfl⟩
    have hr : rv.val = 1 := by
      simp only [recipeCommands, List.mem_cons, Prod.mk.injEq, List.mem_nil_iff, or_false] at hc
      rcases hc with ⟨h, _⟩ | ⟨_, h⟩ | ⟨h, _⟩ | ⟨h, _⟩
      · exact absurd h (by decide)
      · exact h
      · exact absurd h (by decide)
      · exact absurd h (by decide)
    have hv : sizeOunces jv.val = 16 := by
      simp only [sizeCommands, List.mem_cons, Prod.mk.injEq, List.mem_nil_iff, or_false] at hz
      rcases hz with ⟨h, _⟩ | ⟨_, h⟩ | ⟨h, _⟩ | ⟨h, _⟩
      · exact absurd h (by decide)
      · exact h
      · exact absurd h (by decide)
      · exact absurd h (by decide)
    rw [emitted_append _ _ _ rfl, runTimes_dispenseEvents]
    change [pumpTime rv.val 0 _, pumpTime rv.val 1 _, pumpTime rv.val 2 _, pumpTime rv.val 3 _]
      = _
    rw [hr, hv]
    exact lemonade_grande_times

/-- Witness of C1, amended: lemonade at 16 oz, ordered right after start-up. -/
theorem size_select_durations_witness :
    awaitingRecipe.state = .DRINK_ORDERING ∧
    ∃ s1 s2, loop (key 'B') awaitingRecipe = some s1 ∧ s1.input = ((1 : Nat) : Int) ∧
      loop (key 'X') s1 = some s2 ∧
      runTimes (emitted s1 s2) =
        [roundFloat32 (ratio 1 0 * ((16 : Int) : ℚ) / flow_rate),
         roundFloat32 (ratio 1 1 * ((16 : Int) : ℚ) / flow_rate),
         roundFloat32 (ratio 1 2 * ((16 : Int) : ℚ) / flow_rate),
         roundFloat32 (ratio 1 3 * ((16 : Int) : ℚ) / flow_rate)] ∧
      (∀ i : Fin 4,
        ratio 1 i.val * ((16 : Int) : ℚ) / flow_rate * (1 - 1 / 2 ^ 24)
          ≤ roundFloat32 (ratio 1 i.val * ((16 : Int) : ℚ) / flow_rate) ∧
        roundFloat32 (ratio 1 i.val * ((16 : Int) : ℚ) / flow_rate)
          ≤ ratio 1 i.val * ((16 : Int) : ℚ) / flow_rate * (1 + 1 / 2 ^ 24)) ∧
      ('B' = 'B' ∧ 'X' = 'X' →
        runTimes (emitted s1 s2) = [13421773 / 4194304, 0, 0, 13421773 / 4194304]) :=
  ⟨by decide, size_select_durations awaitingRecipe 'B' 1 'X' 16 (by decide) (by decide)
    (by decide)⟩

/-- C2: for lemonade (`B`) at 16 oz (`X`), ordered right after start-up, the
handler computes run times of 3.2 s (as a `float`, 13421773/4194304) for
pumps 1 and 4, but the delays that
`runPumps` issues are 3000 ms, 0 ms, 0 ms, 3000 ms: the run times lose their
fraction when they are passed to the `int` parameters of `runPumps`, so
pumps 1 and 4 are held on for 3000 ms and not for 3200 ms. -/
theorem lemonade_grande_delays :
    awaitingSize.state = .SIZE_ORDERING ∧ awaitingSize.input = 1 ∧
    ∃ t, loop (key 'X') awaitingSize = some t ∧
      runTimes (emitted awaitingSize t) = [13421773 / 4194304, 0, 0, 13421773 / 4194304] ∧
      delays (emitted awaitingSize t) = [3000, 0, 0, 3000] ∧
      delays (emitted awaitingSize t) ≠ [3200, 0, 0, 3200] := by
  refine ⟨by decide, by decide, (loop (key 'X') awaitingSize).getD start, ?_, ?_, ?_, ?_⟩ <;>
    decide!

/-- C4: an iteration taken in `CLEANING` ends with all four pump outputs at
the on power level and the state still `CLEANING` when the input is anything
but `P` (no data included), and with all four outputs off and the state
`STANDBY` when the input is `P`. -/
theorem cleaning_tick (s : Controller) (rd : SerialInput) (hst : s.state = .CLEANING) :
    ∃ t, loop rd s = some t ∧
      (rd ≠ key 'P' → t.outputs = allOn ∧ t.state = .CLEANING) ∧
      (rd = key 'P' → t.outputs = allOff ∧ t.state = .STANDBY) := by
  refine ⟨runCleaningState rd s, by simp only [loop, hst], ?_, ?_⟩
  · intro h
    rw [runCleaningState_eq]
    simp [h, hst]
  · intro h
    rw [runCleaningState_eq]
    simp [h]

/-- Witness of C4: a cleaning controller that receives no data. -/
theorem cleaning_tick_witness :
    cleaning.state = .CLEANING ∧
    ∃ t, loop none cleaning = some t ∧
      (none ≠ key 'P' → t.outputs = allOn ∧ t.state = .CLEANING) ∧
      (none = key 'P' → t.outputs = allOff ∧ t.state = .STANDBY) :=
  ⟨by decide, cleaning_tick cleaning none (by decide)⟩

/-- C5: an iteration taken in `RECIPE_SELECT` with input `A`, `B`, `C` or `D`
leaves the pending recipe index at the character minus `A` (0, 1, 2, 3) and
the state at `SIZE_SELECT`; with any other input (no data included) the
pending index is unchanged and the state stays `RECIPE_SELECT`.  Neither
depends on the `selected` flag or the index left by an earlier order. -/
theorem recipe_select_tick (s : Controller) (rd : SerialInput)
    (hst : s.state = .DRINK_ORDERING) :
    ∃ t, loop rd s = some t ∧
      (∀ c r, (c, r) ∈ recipeCommands → rd = key c →
        t.input = (r : Int) ∧ t.input = code c - code 'A' ∧ t.state = .SIZE_ORDERING) ∧
      (¬ (rd = key 'A' ∨ rd = key 'B' ∨ rd = key 'C' ∨ rd = key 'D') →
        t.input = s.input ∧ t.state = .DRINK_ORDERING) := by
  by_cases hrd : rd = key 'A' ∨ rd = key 'B' ∨ rd = key 'C' ∨ rd = key 'D'
  · obtain ⟨c, r, hc, rfl⟩ := recipe_key_cases rd hrd
    refine ⟨_, loop_select s c r hst hc, ?_, fun h => absurd hrd h⟩
    intro c2 r2 hc2 hkey
    have hcc : c = c2 := by
      have h1 : c.toNat < 128 := by
        simp only [recipeCommands, List.mem_cons, Prod.mk.injEq, List.mem_nil_iff,
          or_false] at hc
        rcases hc with ⟨rfl, _⟩ | ⟨rfl, _⟩ | ⟨rfl, _⟩ | ⟨rfl, _⟩ <;> decide
      have h2 : c2.toNat < 128 := by
        simp only [recipeCommands, List.mem_cons, Prod.mk.injEq, List.mem_nil_iff,
          or_false] at hc2
        rcases hc2 with ⟨rfl, _⟩ | ⟨rfl, _⟩ | ⟨rfl, _⟩ | ⟨rfl, _⟩ <;> decide
      exact (key_eq_key c c2 h1 h2).1 hkey
    subst hcc
    have hrr : r = r2 := by
      simp only [recipeCommands, List.mem_cons, Prod.mk.injEq, List.mem_nil_iff,
        or_false] at hc hc2
      rcases hc with ⟨rfl, rfl⟩ | ⟨rfl, rfl⟩ | ⟨rfl, rfl⟩ | ⟨rfl, rfl⟩ <;>
        rcases hc2 with ⟨h, rfl⟩ | ⟨h, rfl⟩ | ⟨h, rfl⟩ | ⟨h, rfl⟩ <;>
        first | rfl | exact absurd h (by decide)
    subst hrr
    exact ⟨rfl, (recipeCommands_index c r hc).2, rfl⟩
  · refine ⟨_, loop_ordering_other s rd hst hrd, ?_, fun _ => ⟨rfl, rfl⟩⟩
    · intro c r hc hkey
      exfalso
      apply hrd
      simp only [recipeCommands, List.mem_cons, Prod.mk.injEq, List.mem_nil_iff,
        or_false] at hc
      rcases hc with ⟨rfl, _⟩ | ⟨rfl, _⟩ | ⟨rfl, _⟩ | ⟨rfl, _⟩ <;> simp [hkey]

/-- Witness of C5: the recipe command `B` right after the order command. -/
theorem recipe_select_tick_witness :
    awaitingRecipe.state = .DRINK_ORDERING ∧
    ∃ t, loop (key 'B') awaitingRecipe = some t ∧
      (∀ c r, (c, r) ∈ recipeCommands → key 'B' = key c →
        t.input = (r : Int) ∧ t.input = code c - code 'A' ∧ t.state = .SIZE_ORDERING) ∧
      (¬ (key 'B' = key 'A' ∨ key 'B' = key 'B' ∨ key 'B' = key 'C' ∨ key 'B' = key 'D') →
        t.input = awaitingRecipe.input ∧ t.state = .DRINK_ORDERING) :=
  ⟨by decide, recipe_select_tick awaitingRecipe (key 'B') (by decide)⟩

/-- Counterexample to C6 as stated: a requested duration of -1 s for pump 1
makes `runPumps` issue a wrapped-around delay of 4294966296 ms, not 0 ms. -/
theorem runPumps_negative_delay :
    (emitted start (runPumps (-1) 0 0 0 0 start))[2]? = some (.delay 4294966296) ∧
    delays (emitted start (runPumps (-1) 0 0 0 0 start)) = [4294966296, 0, 0, 0] ∧
    (delays (emitted start (runPumps (-1) 0 0 0 0 start)))[0]? ≠ some 0 := by
  decide!

/-- C6, amended: in every call of `runPumps` the step of pump `i + 1` is
print, on-write, delay, off-write, so the off-write is always issued right
after the delay; a requested duration of 0 gives a delay of 0 ms; a negative
duration `d` with `-32 ≤ d` is not guarded: its delay argument is the
wrapped-around value `4294967296 + 1000 * d` ms, which is not 0. -/
theorem runPumps_step (t : Fin 4 → Int) (t5 : Int) (s : Controller) (i : Fin 4) :
    (emitted s (runPumps (t 0) (t 1) (t 2) (t 3) t5 s))[4 * i.val + 1]?
        = some (.analogWrite (pumpPin i) pump_power) ∧
    (emitted s (runPumps (t 0) (t 1) (t 2) (t 3) t5 s))[4 * i.val + 2]?
        = some (.delay (toULong (mulInt16 (t i) 1000))) ∧
    (emitted s (runPumps (t 0) (t 1) (t 2) (t 3) t5 s))[4 * i.val + 3]?
        = some (.analogWrite (pumpPin i) 0) ∧
    (t i = 0 → toULong (mulInt16 (t i) 1000) = 0) ∧
    (-32 ≤ t i ∧ t i < 0 →
      toULong (mulInt16 (t i) 1000) = (4294967296 + 1000 * t i).toNat ∧
      toULong (mulInt16 (t i) 1000) ≠ 0) := by
  rw [runPumps_eq, emitted_append _ _ _ rfl]
  refine ⟨?_, ?_, ?_, ?_, ?_⟩
  · fin_cases i <;> simp [pumpEvents, pumpPin]
  · fin_cases i <;> simp [pumpEvents]
  · fin_cases i <;> simp [pumpEvents, pumpPin]
  · intro h
    rw [h]
    decide
  · rintro ⟨h1, h2⟩
    have hw : mulInt16 (t i) 1000 = 1000 * t i := by
      unfold mulInt16 wrapInt16
      omega
    rw [hw]
    unfold toULong
    constructor
    · congr 1
      omega
    · omega

/-- C7: when the requested duration of pump `i + 1` is 0, the delay that
`runPumps` issues for that pump is exactly 0 ms and the pump's output is off
after its step (print, on-write, delay, off-write). -/
theorem runPumps_zero_duration (t : Fin 4 → Int) (t5 : Int) (s : Controller) (i : Fin 4)
    (h : t i = 0) :
    (emitted s (runPumps (t 0) (t 1) (t 2) (t 3) t5 s))[4 * i.val + 2]? = some (.delay 0) ∧
    (delays (emitted s (runPumps (t 0) (t 1) (t 2) (t 3) t5 s)))[i.val]? = some 0 ∧
    (emitted s (runPumps (t 0) (t 1) (t 2) (t 3) t5 s))[4 * i.val + 3]?
        = some (.analogWrite (pumpPin i) 0) ∧
    level (replay s.outputs
      ((emitted s (runPumps (t 0) (t 1) (t 2) (t 3) t5 s)).take (4 * i.val + 4))) i = 0 := by
  have hz : toULong (mulInt16 (t i) 1000) = 0 := by
    rw [h]
    decide
  rw [runPumps_eq, emitted_append _ _ _ rfl]
  refine ⟨?_, ?_, ?_, ?_⟩
  · fin_cases i <;> simp [pumpEvents] <;> exact hz
  · fin_cases i <;> simp [pumpEvents, delays] <;> exact hz
  · fin_cases i <;> simp [pumpEvents, pumpPin]
  · fin_cases i <;>
      simp [pumpEvents, replay, writePin, level, pump1_pin, pump2_pin, pump3_pin, pump4_pin]

/-- Witness of C7: zero seconds for pump 2 in a dispense of 3, 0, 0, 3 seconds. -/
theorem runPumps_zero_duration_witness :
    (![3, 0, 0, 3] : Fin 4 → Int) 1 = 0 ∧
    (emitted start (runPumps 3 0 0 3 0 start))[4 * 1 + 2]? = some (.delay 0) ∧
    (delays (emitted start (runPumps 3 0 0 3 0 start)))[1]? = some 0 ∧
    (emitted start (runPumps 3 0 0 3 0 start))[4 * 1 + 3]?
        = some (.analogWrite (pumpPin 1) 0) ∧
    level (replay start.outputs
      ((emitted start (runPumps 3 0 0 3 0 start)).take (4 * 1 + 4))) 1 = 0 :=
  ⟨rfl, runPumps_zero_duration ![3, 0, 0, 3] 0 start 1 rfl⟩

theorem pumpWrites_dispenseEvents (c : Char) (r : Nat) (v : Int) :
    pumpWrites (dispenseEvents c r v) = sequentialWrites := by
  by_cases hc : c = 'W' <;>
    simp [pumpWrites, dispenseEvents, pumpEvents, standbyMenu, sequentialWrites, hc]

theorem sequentialWrites_one_on (n : Nat) :
    onCount (replay allOff (sequentialWrites.take n)) ≤ 1 := by
  rcases Nat.lt_or_ge n 8 with h | h
  · interval_cases n <;> decide
  · rw [List.take_of_length_le (by simpa [sequentialWrites] using h)]
    decide

theorem reachable_awaitingSize : Reachable awaitingSize :=
  Reachable.tick (key 'B')
    (Reachable.tick (key 'O') (Reachable.boot ⟨0, 0, 0, 0⟩)
      (by decide! : loop (key 'O') (setup (powerOn ⟨0, 0, 0, 0⟩)) = some awaitingRecipe))
    (by decide! : loop (key 'B') awaitingRecipe = some awaitingSize)

/-- C8: a dispense started from a reachable `SIZE_SELECT` controller makes
exactly the pump writes on(1), off(1), on(2), off(2), on(3), off(3), on(4),
off(4) in that order; after every initial part of that sequence at most one
of the four pump outputs is on, and all four are off at the end. -/
theorem dispense_write_sequence (s : Controller) (c : Char) (v : Int)
    (hr : Reachable s) (hst : s.state = .SIZE_ORDERING) (hc : (c, v) ∈ sizeCommands) :
    ∃ t, loop (key c) s = some t ∧
      pumpWrites (emitted s t) = sequentialWrites ∧
      (∀ n, onCount (replay s.outputs ((pumpWrites (emitted s t)).take n)) ≤ 1) ∧
      replay s.outputs (pumpWrites (emitted s t)) = allOff ∧
      t.outputs = allOff := by
  obtain ⟨hin, hout⟩ := reachable_inv s hr
  have hoff : s.outputs = allOff := hout (by simp [hst])
  refine ⟨_, loop_dispense s c v hst hc hin, ?_, ?_, ?_, rfl⟩
  · rw [emitted_append _ _ _ rfl]
    exact pumpWrites_dispenseEvents c _ v
  · intro n
    rw [emitted_append _ _ _ rfl, pumpWrites_dispenseEvents, hoff]
    exact sequentialWrites_one_on n
  · rw [emitted_append _ _ _ rfl, pumpWrites_dispenseEvents, hoff]
    decide

/-- Witness of C8: the size command `X` while lemonade is pending. -/
theorem dispense_write_sequence_witness :
    Reachable awaitingSize ∧ awaitingSize.state = .SIZE_ORDERING ∧
    ('X', (16 : Int)) ∈ sizeCommands ∧
    ∃ t, loop (key 'X') awaitingSize = some t ∧
      pumpWrites (emitted awaitingSize t) = sequentialWrites ∧
      (∀ n, onCount (replay awaitingSize.outputs
        ((pumpWrites (emitted awaitingSize t)).take n)) ≤ 1) ∧
      replay awaitingSize.outputs (pumpWrites (emitted awaitingSize t)) = allOff ∧
      t.outputs = allOff :=
  ⟨reachable_awaitingSize, by decide, by decide,
    dispense_write_sequence awaitingSize 'X' 16 reachable_awaitingSize (by decide)
      (by decide)⟩

/-- Counterexample to C9 as stated: on the very first iteration after
start-up the unrecognized character `Q` leaves the state at `STANDBY`, but
the standby menu is emitted and `initial_activation` changes. -/
theorem standby_first_tick_effects :
    start.state = .STANDBY ∧ start.initial_activation = true ∧
    ∃ t, loop (key 'Q') start = some t ∧ t.state = .STANDBY ∧
      emitted start t = standbyMenu ∧ emitted start t ≠ [] ∧
      t.initial_activation = false ∧ t ≠ start := by
  refine ⟨by decide, by decide, (loop (key 'Q') start).getD start, ?_, ?_, ?_, ?_, ?_, ?_⟩ <;>
    decide!

/-- C9, amended: an iteration taken in `STANDBY` with an input other than
`P`, `O`, `V` (no data included) leaves the state at `STANDBY` and writes no
pump output.  Once `initial_activation` is false it changes nothing at all;
while `initial_activation` is still true (the first `STANDBY` iteration after
start-up) it emits the two lines of the standby menu and clears
`initial_activation`, and changes nothing else. -/
theorem standby_unrecognized (s : Controller) (rd : SerialInput)
    (hst : s.state = .STANDBY)
    (hrd : rd ≠ key 'P' ∧ rd ≠ key 'O' ∧ rd ≠ key 'V') :
    (s.initial_activation = false → loop rd s = some s) ∧
    (s.initial_activation = true →
      loop rd s = some { s with initial_activation := false, log := s.log ++ standbyMenu }) := by
  obtain ⟨hP, hO, hV⟩ := hrd
  obtain ⟨st, ia, sel, ss, inp, outs, log⟩ := s
  simp only at hst
  subst hst
  constructor
  · intro hia
    simp only at hia
    subst hia
    simp [loop, runStandbyState_eq, transitionTable, hP, hO, hV]
  · intro hia
    simp only at hia
    subst hia
    simp [loop, runStandbyState_eq, transitionTable, hP, hO, hV]

/-- Witness of C9, amended: the character `Q` on the first iteration. -/
theorem standby_unrecognized_witness :
    start.state = .STANDBY ∧
    (key 'Q' ≠ key 'P' ∧ key 'Q' ≠ key 'O' ∧ key 'Q' ≠ key 'V') ∧
    (start.initial_activation = false → loop (key 'Q') start = some start) ∧
    (start.initial_activation = true →
      loop (key 'Q') start =
        some { start with initial_activation := false, log := start.log ++ standbyMenu }) :=
  ⟨by decide, by decide, standby_unrecognized start (key 'Q') (by decide) (by decide)⟩

/-- C10: from any `CLEANING` controller, the stop command `P` on two
consecutive iterations leaves all four pump outputs off at the end of the
first iteration and again at the end of the second, which writes no pump
output. -/
theorem cleaning_stop_twice (s : Controller) (hst : s.state = .CLEANING) :
    ∃ t1 t2, loop (key 'P') s = some t1 ∧ loop (key 'P') t1 = some t2 ∧
      t1.outputs = allOff ∧ t2.outputs = allOff ∧ pumpWrites (emitted t1 t2) = [] := by
  have h1 : loop (key 'P') s = some (runCleaningState (key 'P') s) := by
    simp only [loop, hst]
  have hs1 : (runCleaningState (key 'P') s).state = .STANDBY := by
    rw [runCleaningState_eq]; simp
  have ho1 : (runCleaningState (key 'P') s).outputs = allOff := by
    rw [runCleaningState_eq]; simp
  have h2 : loop (key 'P') (runCleaningState (key 'P') s)
      = some (runStandbyState (key 'P') (runCleaningState (key 'P') s)) := by
    simp only [loop, hs1]
  refine ⟨_, _, h1, h2, ho1, ?_, ?_⟩
  · rw [runStandbyState_eq]
    exact ho1
  · have hPO : key 'P' ≠ key 'O' := by decide
    rw [emitted_append _ _ ((if (runCleaningState (key 'P') s).initial_activation = true
        then standbyMenu else []) ++ (if key 'P' = key 'O' then orderingMenu else []))
      (by rw [runStandbyState_eq]; simp)]
    by_cases hia : (runCleaningState (key 'P') s).initial_activation = true <;>
      simp [hia, hPO, pumpWrites, standbyMenu]

/-- Witness of C10: stopping the cleaning that was started right after start-up. -/
theorem cleaning_stop_twice_witness :
    cleaning.state = .CLEANING ∧
    ∃ t1 t2, loop (key 'P') cleaning = some t1 ∧ loop (key 'P') t1 = some t2 ∧
      t1.outputs = allOff ∧ t2.outputs = allOff ∧ pumpWrites (emitted t1 t2) = [] :=
  ⟨by decide, cleaning_stop_twice cleaning (by decide)⟩

theorem orderingMenu_names : ∀ r ∈ recipe_array, r.name ∈ printedTexts orderingMenu := by
  decide!

theorem loop_standby_order (s : Controller) (hst : s.state = .STANDBY) :
    loop (key 'O') s =
      some { s with
        state := .DRINK_ORDERING
        initial_activation := false
        log := s.log ++
          ((if s.initial_activation = true then standbyMenu else []) ++ orderingMenu) } := by
  have hOP : key 'O' ≠ key 'P' := by decide
  simp [loop, hst, runStandbyState_eq, transitionTable, hOP]

/-- C11: an iteration taken in `STANDBY` with input `O` ends in
`RECIPE_SELECT`, and the status output emitted during the iteration contains
the name of each of the four recipes of the recipe table. -/
theorem standby_order_menu (s : Controller) (hst : s.state = .STANDBY) :
    ∃ t, loop (key 'O') s = some t ∧ t.state = .DRINK_ORDERING ∧
      recipe_array.length = 4 ∧
      ∀ r ∈ recipe_array, r.name ∈ printedTexts (emitted s t) := by
  refine ⟨_, loop_standby_order s hst, rfl, rfl, ?_⟩
  intro r hr
  rw [emitted_append _ _ _ rfl]
  simp only [printedTexts, List.filterMap_append, List.mem_append]
  exact Or.inr (orderingMenu_names r hr)

/-- Witness of C11: the order command right after start-up. -/
theorem standby_order_menu_witness :
    start.state = .STANDBY ∧
    ∃ t, loop (key 'O') start = some t ∧ t.state = .DRINK_ORDERING ∧
      recipe_array.length = 4 ∧
      ∀ r ∈ recipe_array, r.name ∈ printedTexts (emitted start t) :=
  ⟨by decide, standby_order_menu start (by decide)⟩

theorem setup_selectionInv (p : PumpOutputs) : SelectionInv (setup (powerOn p)) := by
  refine ⟨rfl, fun h => ?_⟩
  exact absurd h (by simp [setup, powerOn, pinModeOutput, digitalWriteLow, emit])

theorem loop_selectionInv (rd : SerialInput) (s t : Controller) (hv : validRecipeIndex s.input)
    (hs : SelectionInv s) (h : loop rd s = some t) : SelectionInv t := by
  obtain ⟨hss, hsel⟩ := hs
  unfold loop at h
  split at h
  next hst =>
    rw [runStandbyState_eq] at h
    simp only [Option.some.injEq] at h
    subst h
    refine ⟨hss, fun h2 => ?_⟩
    simp only [transitionTable] at h2
    split_ifs at h2
  next hst =>
    rw [runTestState_eq] at h
    simp only [Option.some.injEq] at h
    subst h
    exact ⟨hss, fun h2 => absurd h2 (by simp)⟩
  next hst =>
    rw [runCleaningState_eq] at h
    simp only [Option.some.injEq] at h
    subst h
    refine ⟨by split <;> exact hss, fun h2 => ?_⟩
    split at h2
    · exact absurd h2 (by simp)
    · exact absurd h2 (by simp [hst])
  next hst =>
    by_cases hrd : rd = key 'A' ∨ rd = key 'B' ∨ rd = key 'C' ∨ rd = key 'D'
    · obtain ⟨c, r, hc, rfl⟩ := recipe_key_cases rd hrd
      rw [runOrderingState_select _ c r hc rfl] at h
      simp only [Option.some.injEq] at h
      subst h
      exact ⟨rfl, fun _ => rfl⟩
    · rw [runOrderingState_other _ rd hrd rfl] at h
      simp only [Option.some.injEq] at h
      subst h
      exact ⟨hss, fun h2 => absurd h2 (by simp)⟩
  next hst =>
    by_cases hrd : rd = key 'W' ∨ rd = key 'X' ∨ rd = key 'Y' ∨ rd = key 'Z'
    · obtain ⟨c, v, hc, rfl⟩ := size_key_cases rd hrd
      rw [runSizeOrderingState_dispense s c v hc hv] at h
      simp only [Option.some.injEq] at h
      subst h
      exact ⟨hss, fun h2 => absurd h2 (by simp)⟩
    · rw [runSizeOrderingState_other s rd hrd] at h
      simp only [Option.some.injEq] at h
      subst h
      exact ⟨hss, hsel⟩

theorem reachable_selectionInv (s : Controller) (h : Reachable s) : SelectionInv s := by
  induction h with
  | boot p => exact setup_selectionInv p
  | tick rd hprev hstep ih => exact loop_selectionInv rd _ _ (reachable_inv _ hprev).1 ih hstep

/-- Counterexample to C12 as stated: after lemonade (`B`) is dispensed at
16 oz (`X`), the `selected` flag is still true and the pending recipe index
is still 1. -/
theorem dispense_keeps_selection :
    awaitingSize.state = .SIZE_ORDERING ∧
    ∃ t, loop (key 'X') awaitingSize = some t ∧ t.state = .STANDBY ∧
      delays (emitted awaitingSize t) = [3000, 0, 0, 3000] ∧
      t.selected = true ∧ t.input = 1 := by
  refine ⟨by decide, (loop (key 'X') awaitingSize).getD start, ?_, ?_, ?_, ?_, ?_⟩ <;> decide!

/-- C12, amended: after an iteration that receives `W`/`X`/`Y`/`Z` in a
reachable `SIZE_SELECT` controller and dispenses, no size selection remains
(the size and its flag are locals of the handler, and the global
`size_selected` is false), but the recipe selection is not cleared:
`selected` is still true and the pending recipe index is the one of the
finished order. -/
theorem dispense_selection_state (s : Controller) (c : Char) (v : Int)
    (hr : Reachable s) (hst : s.state = .SIZE_ORDERING) (hc : (c, v) ∈ sizeCommands) :
    ∃ t, loop (key c) s = some t ∧ t.state = .STANDBY ∧
      t.size_selected = false ∧ t.selected = true ∧
      t.input = s.input ∧ validRecipeIndex t.input := by
  obtain ⟨hin, _⟩ := reachable_inv s hr
  obtain ⟨hss, hsel⟩ := reachable_selectionInv s hr
  exact ⟨_, loop_dispense s c v hst hc hin, rfl, hss, hsel hst, rfl, hin⟩

/-- Witness of C12, amended: lemonade dispensed at 16 oz. -/
theorem dispense_selection_state_witness :
    Reachable awaitingSize ∧ awaitingSize.state = .SIZE_ORDERING ∧
    ('X', (16 : Int)) ∈ sizeCommands ∧
    ∃ t, loop (key 'X') awaitingSize = some t ∧ t.state = .STANDBY ∧
      t.size_selected = false ∧ t.selected = true ∧
      t.input = awaitingSize.input ∧ validRecipeIndex t.input :=
  ⟨reachable_awaitingSize, by decide, by decide,
    dispense_selection_state awaitingSize 'X' 16 reachable_awaitingSize (by decide)
      (by decide)⟩

/-- Counterexample to C13 as stated: a timed run makes eight pump writes but
only four status emissions, one `...` marker before each on-write; no
off-write has a status emission of its own. -/
theorem runPumps_status_count :
    (pumpWrites (emitted start (runPumps 3 0 0 3 0 start))).length = 8 ∧
    (statusEvents (emitted start (runPumps 3 0 0 3 0 start))).length = 4 ∧
    emitted start (runPumps 3 0 0 3 0 start) =
      [.print "...", .analogWrite 11 255, .delay 3000, .analogWrite 11 0,
       .print "...", .analogWrite 10 255, .delay 0, .analogWrite 10 0,
       .print "...", .analogWrite 9 255, .delay 0, .analogWrite 9 0,
       .print "...", .analogWrite 8 255, .delay 3000, .analogWrite 8 0] := by
  decide!

/-- C13, amended: in every timed sequential run each pump is reported once to
the status channel: the step of pump `i + 1` is the status marker `...`, the
on-write, the delay and the off-write, in that order, so the run emits four
status markers for its eight pump writes and the off-writes have no status
emission of their own. -/
theorem runPumps_status (t1 t2 t3 t4 t5 : Int) (s : Controller) :
    emitted s (runPumps t1 t2 t3 t4 t5 s) = pumpEvents t1 t2 t3 t4 ∧
    statusEvents (emitted s (runPumps t1 t2 t3 t4 t5 s)) = List.replicate 4 (.print "...") ∧
    pumpWrites (emitted s (runPumps t1 t2 t3 t4 t5 s)) = sequentialWrites ∧
    ∀ i : Fin 4,
      (emitted s (runPumps t1 t2 t3 t4 t5 s))[4 * i.val]? = some (.print "...") ∧
      (emitted s (runPumps t1 t2 t3 t4 t5 s))[4 * i.val + 1]?
        = some (.analogWrite (pumpPin i) pump_power) ∧
      (emitted s (runPumps t1 t2 t3 t4 t5 s))[4 * i.val + 3]?
        = some (.analogWrite (pumpPin i) 0) ∧
      (emitted s (runPumps t1 t2 t3 t4 t5 s))[4 * i.val + 4]?
        = if i.val = 3 then none else some (.print "...") := by
  rw [runPumps_eq, emitted_append _ _ _ rfl]
  refine ⟨rfl, ?_, ?_, ?_⟩
  · simp [statusEvents, pumpEvents]
  · simp [pumpWrites, pumpEvents, sequentialWrites]
  · intro i
    fin_cases i <;> simp [pumpEvents, pumpPin]

theorem delays_dispenseEvents (c : Char) (r : Nat) (v : Int) :
    delays (dispenseEvents c r v) =
      [toULong (mulInt16 (floatToInt (pumpTime r 0 v)) 1000),
       toULong (mulInt16 (floatToInt (pumpTime r 1 v)) 1000),
       toULong (mulInt16 (floatToInt (pumpTime r 2 v)) 1000),
       toULong (mulInt16 (floatToInt (pumpTime r 3 v)) 1000)] := by
  by_cases hc : c = 'W' <;>
    simp [delays, dispenseEvents, pumpEvents, standbyMenu, hc]

theorem table_delay (inp : Int) (hin : validRecipeIndex inp) (c : Char) (v : Int)
    (hc : (c, v) ∈ sizeCommands) (i : Nat) (hi : i < 4) :
    toULong (mulInt16 (floatToInt (pumpTime inp.toNat i v)) 1000)
      = 1000 * (⌊ratio inp.toNat i * v / flow_rate⌋).toNat ∧
    0 ≤ floatToInt (pumpTime inp.toNat i v) * 1000 ∧
    floatToInt (pumpTime inp.toNat i v) * 1000 ≤ 6000 := by
  obtain ⟨h0, h4⟩ := hin
  simp only [sizeCommands, List.mem_cons, Prod.mk.injEq, List.mem_nil_iff, or_false] at hc
  rcases hc with ⟨rfl, rfl⟩ | ⟨rfl, rfl⟩ | ⟨rfl, rfl⟩ | ⟨rfl, rfl⟩ <;>
    interval_cases inp <;> interval_cases i <;> decide!

theorem sizeCommands_grande (v : Int) (h : ('X', v) ∈ sizeCommands) : v = 16 := by
  simp only [sizeCommands, List.mem_cons, Prod.mk.injEq, List.mem_nil_iff, or_false] at h
  rcases h with ⟨h, _⟩ | ⟨_, h⟩ | ⟨h, _⟩ | ⟨h, _⟩
  · exact absurd h (by decide)
  · exact h
  · exact absurd h (by decide)
  · exact absurd h (by decide)

theorem sizeCommands_tall (v : Int) (h : ('W', v) ∈ sizeCommands) : v = 12 := by
  simp only [sizeCommands, List.mem_cons, Prod.mk.injEq, List.mem_nil_iff, or_false] at h
  rcases h with ⟨_, h⟩ | ⟨h, _⟩ | ⟨h, _⟩ | ⟨h, _⟩
  · exact h
  · exact absurd h (by decide)
  · exact absurd h (by decide)
  · exact absurd h (by decide)

theorem delays_lemonade_grande : delays (dispenseEvents 'X' 1 16) = [3000, 0, 0, 3000] := by
  decide!

theorem delays_test_tall : delays (dispenseEvents 'W' 0 12) = [1000, 1000, 1000, 1000] := by
  decide!

/-- C14: for every recipe of the table and every size command, the delay
that `runPumps` issues for pump `i + 1` in the dispense is exactly
`1000 * floor(ratio_i * V / flow_rate)` ms: the fraction of each run time is
dropped when it is passed to the `int` parameter.  Lemonade at 16 oz holds
pumps 1 and 4 for 3000 ms; test drink at 12 oz holds each pump for 1000 ms. -/
theorem dispense_delays_floor (s : Controller) (c : Char) (v : Int)
    (hst : s.state = .SIZE_ORDERING) (hc : (c, v) ∈ sizeCommands)
    (hin : validRecipeIndex s.input) :
    ∃ t, loop (key c) s = some t ∧
      delays (emitted s t) =
        [1000 * (⌊ratio s.input.toNat 0 * v / flow_rate⌋).toNat,
         1000 * (⌊ratio s.input.toNat 1 * v / flow_rate⌋).toNat,
         1000 * (⌊ratio s.input.toNat 2 * v / flow_rate⌋).toNat,
         1000 * (⌊ratio s.input.toNat 3 * v / flow_rate⌋).toNat] ∧
      (s.input = 1 ∧ c = 'X' → delays (emitted s t) = [3000, 0, 0, 3000]) ∧
      (s.input = 0 ∧ c = 'W' → delays (emitted s t) = [1000, 1000, 1000, 1000]) := by
  refine ⟨_, loop_dispense s c v hst hc hin, ?_, ?_, ?_⟩
  · rw [emitted_append _ _ _ rfl, delays_dispenseEvents,
      (table_delay s.input hin c v hc 0 (by decide)).1,
      (table_delay s.input hin c v hc 1 (by decide)).1,
      (table_delay s.input hin c v hc 2 (by decide)).1,
      (table_delay s.input hin c v hc 3 (by decide)).1]
  · rintro ⟨h1, rfl⟩
    have hv := sizeCommands_grande v hc
    subst hv
    rw [emitted_append _ _ _ rfl, h1]
    exact delays_lemonade_grande
  · rintro ⟨h0, rfl⟩
    have hv := sizeCommands_tall v hc
    subst hv
    rw [emitted_append _ _ _ rfl, h0]
    exact delays_test_tall

/-- Witness of C14: test drink at 12 oz, ordered right after start-up. -/
theorem dispense_delays_floor_witness :
    awaitingSizeTest.state = .SIZE_ORDERING ∧ ('W', (12 : Int)) ∈ sizeCommands ∧
    validRecipeIndex awaitingSizeTest.input ∧
    ∃ t, loop (key 'W') awaitingSizeTest = some t ∧
      delays (emitted awaitingSizeTest t) =
        [1000 * (⌊ratio awaitingSizeTest.input.toNat 0 * ((12 : Int) : ℚ) / flow_rate⌋).toNat,
         1000 * (⌊ratio awaitingSizeTest.input.toNat 1 * ((12 : Int) : ℚ) / flow_rate⌋).toNat,
         1000 * (⌊ratio awaitingSizeTest.input.toNat 2 * ((12 : Int) : ℚ) / flow_rate⌋).toNat,
         1000 * (⌊ratio awaitingSizeTest.input.toNat 3 * ((12 : Int) : ℚ) / flow_rate⌋).toNat] ∧
      (awaitingSizeTest.input = 1 ∧ 'W' = 'X' →
        delays (emitted awaitingSizeTest t) = [3000, 0, 0, 3000]) ∧
      (awaitingSizeTest.input = 0 ∧ 'W' = 'W' →
        delays (emitted awaitingSizeTest t) = [1000, 1000, 1000, 1000]) :=
  ⟨by decide!, by decide, by decide!,
    dispense_delays_floor awaitingSizeTest 'W' 12 (by decide!) (by decide) (by decide!)⟩

/-- C15: in every controller reachable from start-up by any sequence of
iterations with any inputs, observed between iterations, the four pump
outputs are off unless the state is `CLEANING`; so a pump output that is on
between iterations implies the state `CLEANING`. -/
theorem pumps_off_outside_cleaning (s : Controller) (hr : Reachable s) :
    (s.state ≠ .CLEANING → s.outputs = allOff) ∧
    (s.outputs ≠ allOff → s.state = .CLEANING) := by
  have h := (reachable_inv s hr).2
  refine ⟨h, fun hne => ?_⟩
  by_contra hst
  exact hne (h hst)

/-- Witness of C15: the controller that awaits a size after `O`, `B`. -/
theorem pumps_off_outside_cleaning_witness :
    Reachable awaitingSize ∧
    (awaitingSize.state ≠ .CLEANING → awaitingSize.outputs = allOff) ∧
    (awaitingSize.outputs ≠ allOff → awaitingSize.state = .CLEANING) :=
  ⟨reachable_awaitingSize, pumps_off_outside_cleaning awaitingSize reachable_awaitingSize⟩

theorem loop_some (s : Controller) (rd : SerialInput) (hin : validRecipeIndex s.input) :
    ∃ t, loop rd s = some t := by
  cases hst : s.state with
  | STANDBY => exact ⟨runStandbyState rd s, by simp only [loop, hst]⟩
  | TEST => exact ⟨runTestState s, by simp only [loop, hst]⟩
  | CLEANING => exact ⟨runCleaningState rd s, by simp only [loop, hst]⟩
  | DRINK_ORDERING =>
    by_cases hrd : rd = key 'A' ∨ rd = key 'B' ∨ rd = key 'C' ∨ rd = key 'D'
    · obtain ⟨c, r, hc, rfl⟩ := recipe_key_cases rd hrd
      exact ⟨_, loop_select s c r hst hc⟩
    · exact ⟨_, loop_ordering_other s rd hst hrd⟩
  | SIZE_ORDERING =>
    by_cases hrd : rd = key 'W' ∨ rd = key 'X' ∨ rd = key 'Y' ∨ rd = key 'Z'
    · obtain ⟨c, v, hc, rfl⟩ := size_key_cases rd hrd
      exact ⟨_, loop_dispense s c v hst hc hin⟩
    · exact ⟨_, loop_size_other s rd hst hrd⟩

theorem loop_out_of_bounds : loop (key 'X') { awaitingSize with input := 4 } = none := by
  decide!

/-- C16: in every controller reachable from start-up the pending recipe
index is in 0..3, and an iteration with any input yields a controller: no
read of `recipe_array[input]` or `drink_sizes[size]` by a handler is outside
its four-entry table and `size` is never read without a value (either would
make `loop` yield `none`, as it does for the index 4). -/
theorem reachable_lookups_in_bounds (s : Controller) (rd : SerialInput) (hr : Reachable s) :
    validRecipeIndex s.input ∧ (∃ t, loop rd s = some t) ∧
    recipe_array.length = 4 ∧ drink_sizes.length = 4 ∧
    loop (key 'X') { awaitingSize with input := 4 } = none := by
  have hin := (reachable_inv s hr).1
  exact ⟨hin, loop_some s rd hin, rfl, rfl, loop_out_of_bounds⟩

/-- Witness of C16: the size command `X` while lemonade is pending. -/
theorem reachable_lookups_in_bounds_witness :
    Reachable awaitingSize ∧
    validRecipeIndex awaitingSize.input ∧ (∃ t, loop (key 'X') awaitingSize = some t) ∧
    recipe_array.length = 4 ∧ drink_sizes.length = 4 ∧
    loop (key 'X') { awaitingSize with input := 4 } = none :=
  ⟨reachable_awaitingSize,
    reachable_lookups_in_bounds awaitingSize (key 'X') reachable_awaitingSize⟩

theorem table_seconds (r j i : Fin 4) :
    floatToInt (pumpTime r.val i.val (sizeOunces j.val))
      = floatToInt (ratio r.val i.val * sizeOunces j.val / flow_rate) ∧
    floatToInt (pumpTime r.val i.val (sizeOunces j.val))
      = Int.tdiv (pumpTime r.val i.val (sizeOunces j.val)).num
          (pumpTime r.val i.val (sizeOunces j.val)).den ∧
    floatToInt (ratio r.val i.val * sizeOunces j.val / flow_rate)
      = Int.tdiv (ratio r.val i.val * sizeOunces j.val / flow_rate).num
          (ratio r.val i.val * sizeOunces j.val / flow_rate).den ∧
    0 ≤ floatToInt (ratio r.val i.val * sizeOunces j.val / flow_rate) * 1000 ∧
    floatToInt (ratio r.val i.val * sizeOunces j.val / flow_rate) * 1000 ≤ 6000 ∧
    mulInt16 (floatToInt (ratio r.val i.val * sizeOunces j.val / flow_rate)) 1000
      = floatToInt (ratio r.val i.val * sizeOunces j.val / flow_rate) * 1000 ∧
    toULong (mulInt16 (floatToInt (ratio r.val i.val * sizeOunces j.val / flow_rate)) 1000)
      ≤ 6000 := by
  fin_cases r <;> fin_cases j <;> fin_cases i <;> decide!

theorem roundFloat32_examples :
    roundFloat32 (16 / 5) = 13421773 / 4194304 ∧ roundFloat32 (1 / 10) = 13421773 / 134217728 ∧
    roundFloat32 2 = 2 ∧ roundFloat32 flow_rate = flow_rate := by
  decide!

theorem table_float_rounding (r j i : Fin 4) :
    roundFloat32 (ratio r.val i.val) = ratio r.val i.val ∧
    roundFloat32 (sizeOunces j.val) = sizeOunces j.val ∧
    roundFloat32 (ratio r.val i.val * sizeOunces j.val) = ratio r.val i.val * sizeOunces j.val ∧
    floatToInt (roundFloat32 (ratio r.val i.val * sizeOunces j.val / flow_rate))
      = floatToInt (ratio r.val i.val * sizeOunces j.val / flow_rate) := by
  fin_cases r <;> fin_cases j <;> fin_cases i <;> decide!

/-- C17: for every recipe of the recipe table, every size of the size table
and every pump, the argument `(int seconds) * 1000` that `runPumps` computes
lies between 0 and 6000, below the largest 16-bit `int` 32767: the product
does not wrap, nor does the conversion of the run time to `int`, and the
delay issued is at most 6000 ms.  The seconds are those of the run time the
handler computes in `float`, which has the same whole part as the exact
quotient.  The delays of every dispense are these values. -/
theorem delay_arguments_bounded (r j i : Fin 4) :
    floatToInt (pumpTime r.val i.val (sizeOunces j.val))
      = floatToInt (ratio r.val i.val * sizeOunces j.val / flow_rate) ∧
    floatToInt (pumpTime r.val i.val (sizeOunces j.val))
      = Int.tdiv (pumpTime r.val i.val (sizeOunces j.val)).num
          (pumpTime r.val i.val (sizeOunces j.val)).den ∧
    floatToInt (ratio r.val i.val * sizeOunces j.val / flow_rate)
      = Int.tdiv (ratio r.val i.val * sizeOunces j.val / flow_rate).num
          (ratio r.val i.val * sizeOunces j.val / flow_rate).den ∧
    0 ≤ floatToInt (ratio r.val i.val * sizeOunces j.val / flow_rate) * 1000 ∧
    floatToInt (ratio r.val i.val * sizeOunces j.val / flow_rate) * 1000 ≤ 6000 ∧
    (6000 : Int) ≤ 32767 ∧
    mulInt16 (floatToInt (ratio r.val i.val * sizeOunces j.val / flow_rate)) 1000
      = floatToInt (ratio r.val i.val * sizeOunces j.val / flow_rate) * 1000 ∧
    toULong (mulInt16 (floatToInt (ratio r.val i.val * sizeOunces j.val / flow_rate)) 1000)
      ≤ 6000 ∧
    ∀ (s : Controller) (c : Char) (v : Int), s.state = .SIZE_ORDERING →
      (c, v) ∈ sizeCommands → validRecipeIndex s.input →
      ∃ t, loop (key c) s = some t ∧ (delays (emitted s t)).length = 4 ∧
        ∀ d ∈ delays (emitted s t), d ≤ 6000 := by
  obtain ⟨ha, hb, h1, h2, h3, h4, h5⟩ := table_seconds r j i
  refine ⟨ha, hb, h1, h2, h3, by decide, h4, h5, ?_⟩
  intro s c v hst hc hin
  refine ⟨_, loop_dispense s c v hst hc hin, ?_, ?_⟩
  · rw [emitted_append _ _ _ rfl, delays_dispenseEvents]
    rfl
  · obtain ⟨jv, rfl⟩ := sizeCommands_sizeOunces c v hc
    obtain ⟨h0, h4⟩ := hin
    have hr : ∃ rv : Fin 4, s.input.toNat = rv.val := ⟨⟨s.input.toNat, by omega⟩, rfl⟩
    obtain ⟨rv, hrv⟩ := hr
    rw [emitted_append _ _ _ rfl, delays_dispenseEvents, hrv]
    intro d hd
    simp only [List.mem_cons, List.mem_nil_iff, or_false] at hd
    rcases hd with rfl | rfl | rfl | rfl
    · have h := table_seconds rv jv 0
      rw [← h.1] at h
      exact h.2.2.2.2.2.2
    · have h := table_seconds rv jv 1
      rw [← h.1] at h
      exact h.2.2.2.2.2.2
    · have h := table_seconds rv jv 2
      rw [← h.1] at h
      exact h.2.2.2.2.2.2
    · have h := table_seconds rv jv 3
      rw [← h.1] at h
      exact h.2.2.2.2.2.2

/-- Witness of C17: lemonade, 30 oz, pump 4 (the largest argument), and the
dispense of lemonade at 16 oz. -/
theorem delay_arguments_bounded_witness :
    floatToInt (ratio 1 3 * sizeOunces 3 / flow_rate) * 1000 = 6000 ∧
    floatToInt (pumpTime 1 3 (sizeOunces 3)) * 1000 = 6000 ∧
    ∃ t, loop (key 'X') awaitingSize = some t ∧ (delays (emitted awaitingSize t)).length = 4 ∧
      ∀ d ∈ delays (emitted awaitingSize t), d ≤ 6000 :=
  ⟨by decide!, by decide!,
    (delay_arguments_bounded 1 3 3).2.2.2.2.2.2.2.2 awaitingSize 'X' 16 (by decide)
    (by decide) (by decide)⟩

theorem pumpOunces_dispenseEvents (c : Char) (r : Nat) (v : Int) :
    pumpOunces (dispenseEvents c r v) =
      [pumpOz r 0 v, pumpOz r 1 v, pumpOz r 2 v, pumpOz r 3 v] := by
  by_cases hc : c = 'W' <;>
    simp [pumpOunces, dispenseEvents, floatsAfter, leadingFloats, pumpEvents, hc]

theorem table_volumes (r j : Fin 4) :
    pumpOz r.val 0 (sizeOunces j.val) + pumpOz r.val 1 (sizeOunces j.val)
      + pumpOz r.val 2 (sizeOunces j.val) + pumpOz r.val 3 (sizeOunces j.val)
      ≤ sizeOunces j.val ∧
    ∀ i : Fin 4, 0 ≤ pumpOz r.val i.val (sizeOunces j.val) ∧
      0 ≤ pumpTime r.val i.val (sizeOunces j.val) := by
  fin_cases r <;> fin_cases j <;> decide!

/-- C18: for every recipe of the recipe table and every size command, the
four concentrate volumes `pump_1_oz .. pump_4_oz` that the handler computes
add up to at most the volume of the size in ounces, and every volume and
every run time is non-negative. -/
theorem dispense_volumes (s : Controller) (c : Char) (v : Int)
    (hst : s.state = .SIZE_ORDERING) (hc : (c, v) ∈ sizeCommands)
    (hin : validRecipeIndex s.input) :
    ∃ t o1 o2 o3 o4, loop (key c) s = some t ∧
      pumpOunces (emitted s t) = [o1, o2, o3, o4] ∧
      o1 + o2 + o3 + o4 ≤ (v : ℚ) ∧
      (∀ o ∈ pumpOunces (emitted s t), 0 ≤ o) ∧
      (runTimes (emitted s t)).length = 4 ∧
      ∀ d ∈ runTimes (emitted s t), 0 ≤ d := by
  obtain ⟨jv, rfl⟩ := sizeCommands_sizeOunces c _ hc
  have hr : ∃ rv : Fin 4, s.input.toNat = rv.val :=
    ⟨⟨s.input.toNat, by have := hin.1; have := hin.2; omega⟩, rfl⟩
  obtain ⟨rv, hrv⟩ := hr
  obtain ⟨hsum, hpos⟩ := table_volumes rv jv
  refine ⟨_, pumpOz rv.val 0 (sizeOunces jv.val), pumpOz rv.val 1 (sizeOunces jv.val),
    pumpOz rv.val 2 (sizeOunces jv.val), pumpOz rv.val 3 (sizeOunces jv.val),
    loop_dispense s c _ hst hc hin, ?_, ?_, ?_, ?_, ?_⟩
  · rw [emitted_append _ _ _ rfl, pumpOunces_dispenseEvents, hrv]
  · exact hsum
  · rw [emitted_append _ _ _ rfl, pumpOunces_dispenseEvents, hrv]
    intro o ho
    simp only [List.mem_cons, List.mem_nil_iff, or_false] at ho
    rcases ho with rfl | rfl | rfl | rfl
    · exact (hpos 0).1
    · exact (hpos 1).1
    · exact (hpos 2).1
    · exact (hpos 3).1
  · rw [emitted_append _ _ _ rfl, runTimes_dispenseEvents]
    rfl
  · rw [emitted_append _ _ _ rfl, runTimes_dispenseEvents, hrv]
    intro d hd
    simp only [List.mem_cons, List.mem_nil_iff, or_false] at hd
    rcases hd with rfl | rfl | rfl | rfl
    · exact (hpos 0).2
    · exact (hpos 1).2
    · exact (hpos 2).2
    · exact (hpos 3).2

/-- Witness of C18: test drink at 12 oz, whose four volumes fill the cup. -/
theorem dispense_volumes_witness :
    awaitingSizeTest.state = .SIZE_ORDERING ∧ ('W', (12 : Int)) ∈ sizeCommands ∧
    validRecipeIndex awaitingSizeTest.input ∧
    ∃ t o1 o2 o3 o4, loop (key 'W') awaitingSizeTest = some t ∧
      pumpOunces (emitted awaitingSizeTest t) = [o1, o2, o3, o4] ∧
      o1 + o2 + o3 + o4 ≤ (((12 : Int)) : ℚ) ∧
      (∀ o ∈ pumpOunces (emitted awaitingSizeTest t), 0 ≤ o) ∧
      (runTimes (emitted awaitingSizeTest t)).length = 4 ∧
      ∀ d ∈ runTimes (emitted awaitingSizeTest t), 0 ≤ d :=
  ⟨by decide!, by decide, by decide!,
    dispense_volumes awaitingSizeTest 'W' 12 (by decide!) (by decide) (by decide!)⟩

end PumpController

namespace ButtonController

theorem getMsg_eq_firstPressed (digitalRead : Nat → Level) :
    getMsg digitalRead = firstPressed digitalRead := by
  unfold getMsg firstPressed
  by_cases h1 : digitalRead purge = .LOW
  · simp [pressed, buttons, h1]
  by_cases h2 : digitalRead order = .LOW
  · simp [pressed, buttons, h1, h2]
  by_cases h3 : digitalRead rec1 = .LOW
  · simp [pressed, buttons, h1, h2, h3]
  by_cases h4 : digitalRead rec2 = .LOW
  · simp [pressed, buttons, h1, h2, h3, h4]
  by_cases h5 : digitalRead rec3 = .LOW
  · simp [pressed, buttons, h1, h2, h3, h4, h5]
  by_cases h6 : digitalRead rec4 = .LOW
  · simp [pressed, buttons, h1, h2, h3, h4, h5, h6]
  by_cases h7 : digitalRead tall = .LOW
  · simp [pressed, buttons, h1, h2, h3, h4, h5, h6, h7]
  by_cases h8 : digitalRead grande = .LOW
  · simp [pressed, buttons, h1, h2, h3, h4, h5, h6, h7, h8]
  by_cases h9 : digitalRead venti = .LOW
  · simp [pressed, buttons, h1, h2, h3, h4, h5, h6, h7, h8, h9]
  by_cases h10 : digitalRead trenta = .LOW
  · simp [pressed, buttons, h1, h2, h3, h4, h5, h6, h7, h8, h9, h10]
  · simp [pressed, buttons, h1, h2, h3, h4, h5, h6, h7, h8, h9, h10]

theorem buttons_alphabet : ∀ b ∈ buttons, b.2 ∈ commandAlphabet := by
  decide

/-- C19: when at least one of the ten buttons is pressed (reads `LOW`),
`getMsg` returns the character of the first pressed button in the priority
order purge `P`, order `O`, rec1..rec4 `A`..`D`, tall `W`, grande `X`, venti
`Y`, trenta `Z`: no button before it in that order is pressed.  The character
belongs to the command alphabet, and when exactly one button is pressed it is
the character of that button. -/
theorem getMsg_first_pressed (digitalRead : Nat → Level)
    (h : ∃ b ∈ buttons, digitalRead b.1 = .LOW) :
    ∃ b before after, buttons = before ++ b :: after ∧
      digitalRead b.1 = .LOW ∧ (∀ a ∈ before, digitalRead a.1 ≠ .LOW) ∧
      getMsg digitalRead = some b.2 ∧ firstPressed digitalRead = some b.2 ∧
      b.2 ∈ commandAlphabet ∧
      ∀ b1 ∈ buttons, digitalRead b1.1 = .LOW →
        (∀ b2 ∈ buttons, b2 ≠ b1 → digitalRead b2.1 = .HIGH) → b.2 = b1.2 := by
  obtain ⟨b0, hb0, hlow0⟩ := h
  cases hf : buttons.find? (fun b => decide (digitalRead b.1 = .LOW)) with
  | none =>
    rw [List.find?_eq_none] at hf
    exact absurd (by simpa using hlow0) (hf b0 hb0)
  | some b =>
    have hfound := hf
    rw [List.find?_eq_some] at hf
    obtain ⟨hp, before, after, hsplit, hbefore⟩ := hf
    have hlow : digitalRead b.1 = .LOW := by simpa using hp
    have hmem : b ∈ buttons := by
      rw [hsplit]
      simp
    have hfirst : firstPressed digitalRead = some b.2 := by
      simp only [firstPressed, hfound, Option.map_some']
    refine ⟨b, before, after, hsplit, hlow, ?_, ?_, hfirst, buttons_alphabet b hmem, ?_⟩
    · intro a ha
      have := hbefore a ha
      simpa using this
    · rw [getMsg_eq_firstPressed]
      exact hfirst
    · intro b1 hb1 _ hothers
      by_cases hne : b = b1
      · rw [hne]
      · have hhigh := hothers b hmem hne
        rw [hlow] at hhigh
        exact absurd hhigh (by decide)

/-- Witness of C19: tall and rec2 pressed together give `B`; `getMsg` and the
first pressed button agree there. -/
theorem getMsg_first_pressed_witness :
    (∃ b ∈ buttons, pressedPins [tall, rec2] b.1 = .LOW) ∧
    getMsg (pressedPins [tall, rec2]) = some 'B' ∧
    getMsg (pressedPins [trenta]) = some 'Z' ∧
    ∃ b before after, buttons = before ++ b :: after ∧
      pressedPins [tall, rec2] b.1 = .LOW ∧
      (∀ a ∈ before, pressedPins [tall, rec2] a.1 ≠ .LOW) ∧
      getMsg (pressedPins [tall, rec2]) = some b.2 ∧
      firstPressed (pressedPins [tall, rec2]) = some b.2 ∧
      b.2 ∈ commandAlphabet ∧
      ∀ b1 ∈ buttons, pressedPins [tall, rec2] b1.1 = .LOW →
        (∀ b2 ∈ buttons, b2 ≠ b1 → pressedPins [tall, rec2] b2.1 = .HIGH) → b.2 = b1.2 :=
  ⟨⟨(rec2, 'B'), by decide, by decide⟩, by decide, by decide,
    getMsg_first_pressed (pressedPins [tall, rec2]) ⟨(rec2, 'B'), by decide, by decide⟩⟩

end ButtonController
